import Mathlib

/-!
Verification development for the sonic-exporter collector pipelines.

The Go collectors (internal/collector/lldp_collector.go, vlan_collector.go,
fdb_collector.go, lag_collector.go) are shallowly embedded as pure Lean
functions.  Redis hashes become association lists with the Go map default
(missing field reads give the empty string), key scans become lists of
strings, float64 gauge values (all of which are small non-negative integers
in these pipelines: 0/1 flags and counts) become naturals, and the external
standard-library primitives (strconv.ParseBool, strconv.Atoi,
time.ParseDuration, encoding/json unmarshalling) are passed in as function
parameters, since they are not part of this repository.
-/

namespace SonicExporter

/-- A metric record: descriptor name, gauge value, ordered label values.
Mirrors a prometheus.MustNewConstMetric call site. -/
structure Metric where
  name : String
  value : Nat
  labels : List String
deriving DecidableEq

/-- A Redis hash (field name to value), as returned by HgetAllFromDb. -/
abbrev Hash : Type := List (String × String)

/-- Go map read with the zero-value default: h[k] is the empty string when
the field is absent. -/
def hget (h : Hash) (field : String) : String :=
  match h with
  | [] => ""
  | (f, v) :: rest => if f = field then v else hget rest field

/-- Emptiness test for a hash, mirroring len(data) == 0. -/
def hashIsEmpty (h : Hash) : Bool :=
  match h with
  | [] => true
  | _ :: _ => false

/-- Go strings.HasPrefix, via the underlying character list. -/
def strHasPrefix (pre s : String) : Bool :=
  pre.data.isPrefixOf s.data

/-- Go strings.TrimPrefix: removes pre from the front of s when present,
otherwise returns s unchanged. -/
def trimPrefix (pre s : String) : String :=
  if pre.data.isPrefixOf s.data then String.mk (s.data.drop pre.data.length) else s

/-- Whitespace class of Go unicode.IsSpace restricted to the Latin-1 range
(space, tab, newline, carriage return, vertical tab, form feed, next line,
no-break space); rarer Unicode space classes are outside the data handled
by these collectors and are not modelled. -/
def goIsSpace (c : Char) : Bool :=
  c = ' ' ∨ c = '\t' ∨ c = '\n' ∨ c = '\r' ∨ c = Char.ofNat 11 ∨ c = Char.ofNat 12 ∨
    c = Char.ofNat 133 ∨ c = Char.ofNat 160

/-- Removes the leading run of whitespace characters. -/
def dropLeadingSpace : List Char → List Char
  | [] => []
  | c :: cs => if goIsSpace c then dropLeadingSpace cs else c :: cs

/-- Go strings.TrimSpace. -/
def goTrim (s : String) : String :=
  String.mk (dropLeadingSpace (dropLeadingSpace s.data.reverse).reverse)

/-- ASCII lowercasing of one character (the collectors only lowercase ASCII
status and type words). -/
def goToLowerChar (c : Char) : Char :=
  if 'A' ≤ c ∧ c ≤ 'Z' then Char.ofNat (c.toNat + 32) else c

/-- Go strings.ToLower on the ASCII range. -/
def goToLower (s : String) : String :=
  String.mk (s.data.map goToLowerChar)

/-- Lexicographic comparison of character lists by code point, the order
underlying Go string comparison. -/
def leChars : List Char → List Char → Bool
  | [], _ => true
  | _ :: _, [] => false
  | a :: as, b :: bs =>
      if a.toNat < b.toNat then true
      else if b.toNat < a.toNat then false
      else leChars as bs

/-- Go string ordering. -/
def leString (a b : String) : Bool :=
  leChars a.data b.data

/-- The Prop form of the Go string order, used as the sorting relation. -/
def leStringRel (a b : String) : Prop :=
  leString a b = true

instance : DecidableRel leStringRel :=
  fun a b => inferInstanceAs (Decidable (leString a b = true))

/-- Sorting of string key lists, mirroring sort.Strings: since Go string
ordering is total and antisymmetric, the sorted output is the unique sorted
permutation, which any correct sorting algorithm produces. -/
def sortStrings (l : List String) : List String :=
  l.insertionSort leStringRel

/-- Go statusToGauge (lag_collector.go): a fixed vocabulary of "up"-like
strings maps to 1, everything else to 0. -/
def statusToGauge (status : String) : Nat :=
  let value := goToLower (goTrim status)
  if value = "up" ∨ value = "enabled" ∨ value = "selected" ∨ value = "active" ∨
      value = "true" ∨ value = "ok" then 1 else 0

/-- Go firstNonEmpty (lag_collector.go): first value whose trimmed form is
non-empty; note it returns the original, untrimmed value. -/
def firstNonEmpty (values : List String) : String :=
  match values with
  | [] => ""
  | v :: rest => if goTrim v ≠ "" then v else firstNonEmpty rest

/-! ## LLDP collector (lldp_collector.go) -/

/-- Configuration fields of lldpCollectorConfig relevant to scrapeMetrics. -/
structure LldpConfig where
  includeMgmt : Bool
  maxNeighbors : Nat
deriving DecidableEq

/-- Result state of lldpCollector.scrapeMetrics: accumulated metrics,
neighbor count, skipped-entry count. -/
structure LldpScrapeResult where
  metrics : List Metric
  neighbors : Nat
  skipped : Nat
deriving DecidableEq

/-- Go lldp_rem port display resolution (resolvedRemotePortDisplay). -/
def resolvedRemotePortDisplay (remotePortID remotePortDesc remotePortIDSubtype : String) : String :=
  let subtype := goToLower (goTrim remotePortIDSubtype)
  if remotePortDesc ≠ "" ∧ (subtype = "7" ∨ subtype = "local" ∨ subtype = "3" ∨ subtype = "mac")
    then remotePortDesc
  else if remotePortID ≠ "" then remotePortID
  else remotePortDesc

/-- One iteration of the loop in lldpCollector.scrapeMetrics, in source
order: neighbor-cap check, prefix check, management-interface filter,
hash fetch and emptiness check, all-fields-empty check, emission. -/
def lldpStep (cfg : LldpConfig) (db : String → Hash) (st : LldpScrapeResult)
    (lldpKey : String) : LldpScrapeResult :=
  if st.neighbors ≥ cfg.maxNeighbors then { st with skipped := st.skipped + 1 }
  else
    let localInterface := trimPrefix "LLDP_ENTRY_TABLE:" lldpKey
    if localInterface = "" ∨ localInterface = lldpKey then { st with skipped := st.skipped + 1 }
    else if cfg.includeMgmt = false ∧ localInterface = "eth0" then st
    else
      let lldpData := db lldpKey
      if hashIsEmpty lldpData then { st with skipped := st.skipped + 1 }
      else
        let remoteSystemName := hget lldpData "lldp_rem_sys_name"
        let remotePortID := hget lldpData "lldp_rem_port_id"
        let remotePortDesc := hget lldpData "lldp_rem_port_desc"
        let remotePortIDSubtype := hget lldpData "lldp_rem_port_id_subtype"
        let remotePortDisplay := resolvedRemotePortDisplay remotePortID remotePortDesc remotePortIDSubtype
        let remoteChassisID := hget lldpData "lldp_rem_chassis_id"
        let remoteMgmtIP := hget lldpData "lldp_rem_man_addr"
        if remoteSystemName = "" ∧ remotePortID = "" ∧ remotePortDesc = "" ∧
            remoteChassisID = "" ∧ remoteMgmtIP = "" then
          { st with skipped := st.skipped + 1 }
        else
          let localRole :=
            if localInterface = "eth0" then "management"
            else if strHasPrefix "Ethernet" localInterface = false then "other"
            else "frontpanel"
          { st with
              metrics := st.metrics ++
                [⟨"sonic_lldp_neighbor_info", 1,
                  [localInterface, localRole, remoteSystemName, remotePortID, remotePortDesc,
                   remotePortIDSubtype, remotePortDisplay, remoteChassisID, remoteMgmtIP]⟩],
              neighbors := st.neighbors + 1 }

/-- lldpCollector.scrapeMetrics on the success path: sort the scanned keys,
then fold the per-key loop body. -/
def lldpScrape (cfg : LldpConfig) (db : String → Hash) (lldpKeys : List String) : LldpScrapeResult :=
  (sortStrings lldpKeys).foldl (lldpStep cfg db) ⟨[], 0, 0⟩

/-! ## VLAN collector (vlan_collector.go) -/

/-- Configuration fields of vlanCollectorConfig relevant to scrapeMetrics. -/
structure VlanConfig where
  maxVlans : Nat
  maxMembers : Nat
deriving DecidableEq

/-- Go vlanMemberEntry. -/
structure VlanMemberEntry where
  name : String
  taggingMode : String
deriving DecidableEq

/-- Set insertion for the vlans identifier set (a Go map used as a set):
adds the name when not yet present. -/
def insertName (names : List String) (n : String) : List String :=
  if n ∈ names then names else names ++ [n]

/-- Predicate for a scanned key rejected by the prefix check: the stripped
identifier is empty or the prefix was absent. -/
def isBadKey (pre key : String) : Bool :=
  decide (trimPrefix pre key = "" ∨ trimPrefix pre key = key)

/-- One identifier-scan loop of vlanCollector.scrapeMetrics (used for both
the CONFIG_DB VLAN| scan and the APPL_DB VLAN_TABLE: scan): accumulates the
identifier set and the skipped-entry count. -/
def scanNames (pre : String) (acc : List String × Nat) (keys : List String) :
    List String × Nat :=
  keys.foldl
    (fun acc key =>
      let name := trimPrefix pre key
      if name = "" ∨ name = key then (acc.1, acc.2 + 1)
      else (insertName acc.1 name, acc.2))
    acc

/-- Splitting a character list at the first occurrence of sep, the
computational core of strings.SplitN(s, sep, 2). -/
def splitFirst (sep : Char) : List Char → Option (List Char × List Char)
  | [] => none
  | c :: cs =>
      if c = sep then some ([], cs)
      else
        match splitFirst sep cs with
        | none => none
        | some (a, b) => some (c :: a, b)

/-- Go strings.SplitN(s, sep, 2) restricted to the two-part success case:
none models the single-element result when sep does not occur. -/
def splitN2 (s : String) (sep : Char) : Option (String × String) :=
  match splitFirst sep s.data with
  | none => none
  | some (a, b) => some (String.mk a, String.mk b)

/-- The member entry a VLAN_MEMBER| key contributes, when it passes the
prefix and two-part path checks: the parent VLAN name paired with the child
entry (port name and tagging mode read from CONFIG_DB). -/
def memberEntryOf (db : String → Hash) (key : String) : Option (String × VlanMemberEntry) :=
  let memberPath := trimPrefix "VLAN_MEMBER|" key
  if memberPath = "" ∨ memberPath = key then none
  else
    match splitN2 memberPath '|' with
    | none => none
    | some (vlanName, memberName) =>
        if vlanName = "" ∨ memberName = "" then none
        else
          let memberData := db key
          let taggingMode := firstNonEmpty [hget memberData "tagging_mode", "unknown"]
          some (vlanName, ⟨memberName, taggingMode⟩)

/-- Predicate for a VLAN_MEMBER| key rejected by the member-scan loop. -/
def isBadMemberKey (db : String → Hash) (key : String) : Bool :=
  decide (memberEntryOf db key = none)

/-- The member-scan loop of vlanCollector.scrapeMetrics: valid keys append
their (parent, child) entry in scan order, invalid keys count as skipped. -/
def scanMembers (db : String → Hash) (acc : List (String × VlanMemberEntry) × Nat)
    (keys : List String) : List (String × VlanMemberEntry) × Nat :=
  keys.foldl
    (fun acc key =>
      match memberEntryOf db key with
      | none => (acc.1, acc.2 + 1)
      | some entry => (acc.1 ++ [entry], acc.2))
    acc

/-- Per-parent child list: the entries grouped under membersByVlan for one
parent, in scan (append) order. -/
def membersOfList (entries : List (String × VlanMemberEntry)) (vlanName : String) :
    List VlanMemberEntry :=
  (entries.filter (fun p => p.1 = vlanName)).map (fun p => p.2)

/-- The Prop form of the member order (by member name). -/
def leMemberRel (a b : VlanMemberEntry) : Prop :=
  leString a.name b.name = true

instance : DecidableRel leMemberRel :=
  fun a b => inferInstanceAs (Decidable (leString a.name b.name = true))

/-- Go sort.Slice on members ordered by name. -/
def sortMembers (ms : List VlanMemberEntry) : List VlanMemberEntry :=
  ms.insertionSort leMemberRel

/-- State of the main emission loop of vlanCollector.scrapeMetrics. -/
structure VlanScrapeState where
  metrics : List Metric
  skipped : Nat
  processedVlans : Nat
  processedMembers : Nat
deriving DecidableEq

/-- State threaded through one parent's member loop: the accumulated
metrics and skip count, the cycle-global processedMembers counter and the
per-parent memberCount. -/
structure MemberFoldState where
  metrics : List Metric
  skipped : Nat
  processedMembers : Nat
  memberCount : Nat
deriving DecidableEq

/-- One iteration of the member loop: members at or over the global
processedMembers cap are skipped; otherwise a member_info record is emitted
and both counters advance. -/
def memberStep (cfg : VlanConfig) (vlanName : String) (st : MemberFoldState)
    (member : VlanMemberEntry) : MemberFoldState :=
  if st.processedMembers ≥ cfg.maxMembers then { st with skipped := st.skipped + 1 }
  else
    { st with
        metrics := st.metrics ++
          [⟨"sonic_vlan_member_info", 1, [vlanName, member.name, member.taggingMode]⟩],
        processedMembers := st.processedMembers + 1,
        memberCount := st.memberCount + 1 }

/-- One iteration of the main loop of vlanCollector.scrapeMetrics for a
single sorted parent name: entity-cap check, per-table fetches, identity
and status records, the sorted member walk, and the member-count record. -/
def processVlan (cfg : VlanConfig) (dbConfig dbAppl : String → Hash)
    (membersOf : String → List VlanMemberEntry) (st : VlanScrapeState)
    (vlanName : String) : VlanScrapeState :=
  if st.processedVlans ≥ cfg.maxVlans then { st with skipped := st.skipped + 1 }
  else
    let configData := dbConfig ("VLAN|" ++ vlanName)
    let applData := dbAppl ("VLAN_TABLE:" ++ vlanName)
    let vlanID := firstNonEmpty [hget configData "vlanid", trimPrefix "Vlan" vlanName]
    let infoMetrics := [⟨"sonic_vlan_info", 1, [vlanName, vlanID]⟩]
    let adminStatus := firstNonEmpty [hget applData "admin_status", hget configData "admin_status"]
    let adminMetrics : List Metric :=
      if adminStatus ≠ "" then [⟨"sonic_vlan_admin_status", statusToGauge adminStatus, [vlanName]⟩]
      else []
    let operStatus := hget applData "oper_status"
    let operMetrics : List Metric :=
      if operStatus ≠ "" then [⟨"sonic_vlan_oper_status", statusToGauge operStatus, [vlanName]⟩]
      else []
    let members := sortMembers (membersOf vlanName)
    let mf := members.foldl (memberStep cfg vlanName)
      ⟨st.metrics ++ infoMetrics ++ adminMetrics ++ operMetrics, st.skipped, st.processedMembers, 0⟩
    { metrics := mf.metrics ++ [⟨"sonic_vlan_members", mf.memberCount, [vlanName]⟩]
      skipped := mf.skipped
      processedVlans := st.processedVlans + 1
      processedMembers := mf.processedMembers }

/-- vlanCollector.scrapeMetrics on the success path: scan both identifier
namespaces, sort the unioned identifier set, scan and group member keys,
then walk the sorted parents. -/
def vlanScrape (cfg : VlanConfig) (dbConfig dbAppl : String → Hash)
    (configKeys applKeys memberKeys : List String) : VlanScrapeState :=
  let s1 := scanNames "VLAN|" ([], 0) configKeys
  let s2 := scanNames "VLAN_TABLE:" s1 applKeys
  let vlanNames := sortStrings s2.1
  let s3 := scanMembers dbConfig ([], s2.2) memberKeys
  let membersOf := membersOfList s3.1
  vlanNames.foldl (processVlan cfg dbConfig dbAppl membersOf) ⟨[], s3.2, 0, 0⟩

/-! ## Snapshot cache refresh (vlanCollector.refreshMetrics) -/

/-- Cached collector state guarded by the mutex in vlanCollector: snapshot
metrics, health fields, and the last refresh timestamp (None models the Go
zero time before the first successful refresh). -/
structure CacheState where
  cachedMetrics : List Metric
  lastSuccess : Nat
  lastScrapeDuration : Nat
  lastSkippedEntries : Nat
  lastRefreshTime : Option Nat
deriving DecidableEq

/-- One refreshMetrics cycle given the producer outcome (scrapeMetrics
result or error), the measured duration and the current time.  The duration
is always stored; on error only the success flag is cleared; on success the
snapshot, skip count, success flag and refresh time are all replaced. -/
def refreshStep (st : CacheState) (producer : Except String (List Metric × Nat))
    (dur now : Nat) : CacheState :=
  match producer with
  | .error _ => { st with lastScrapeDuration := dur, lastSuccess := 0 }
  | .ok (metrics, skippedEntries) =>
      { cachedMetrics := metrics
        lastSuccess := 1
        lastScrapeDuration := dur
        lastSkippedEntries := skippedEntries
        lastRefreshTime := some now }

/-- The snapshot served to readers by Collect: the cached metric records. -/
def collectRead (st : CacheState) : List Metric :=
  st.cachedMetrics

/-! ## FDB collector (fdb_collector.go) -/

/-- The three ASIC_DB key prefixes used by the FDB collector. -/
def asciiFDBEntryPrefix : String := "ASIC_STATE:SAI_OBJECT_TYPE_FDB_ENTRY:"

/-- ASIC_DB VLAN object key prefix. -/
def asciiVLANObjectPrefix : String := "ASIC_STATE:SAI_OBJECT_TYPE_VLAN:"

/-- ASIC_DB bridge port object key prefix. -/
def asciiBridgePortPrefix : String := "ASIC_STATE:SAI_OBJECT_TYPE_BRIDGE_PORT:"

/-- Configuration fields of fdbCollectorConfig relevant to scrapeMetrics. -/
structure FdbConfig where
  maxEntries : Nat
  maxPorts : Nat
  maxVlans : Nat
deriving DecidableEq

/-- Go fdbEntryKey, the JSON payload of a forwarding-entry key. -/
structure FdbEntryKey where
  bvid : String
  vlan : String
  mac : String
deriving DecidableEq

/-- Go string-to-string map lookup with the zero-value ("") default, used
for the cross-reference maps. -/
def slookup (m : List (String × String)) (k : String) : String :=
  match m with
  | [] => ""
  | (k', v) :: rest => if k' = k then v else slookup rest k

/-- Go string-to-string map assignment m[k] = v: overwrite when the key is
present, append otherwise. -/
def supdate (m : List (String × String)) (k v : String) : List (String × String) :=
  match m with
  | [] => [(k, v)]
  | (k', v') :: rest => if k' = k then (k, v) :: rest else (k', v') :: supdate rest k v

/-- Go string-to-count map lookup with the zero default. -/
def nlookup (m : List (String × Nat)) (k : String) : Nat :=
  match m with
  | [] => 0
  | (k', v) :: rest => if k' = k then v else nlookup rest k

/-- Go string-to-count map increment m[k]++ . -/
def bump (m : List (String × Nat)) (k : String) : List (String × Nat) :=
  match m with
  | [] => [(k, 1)]
  | (k', v) :: rest => if k' = k then (k', v + 1) :: rest else (k', v) :: bump rest k

/-- Go sortedMapKeys: the sorted key set of a count map. -/
def sortedMapKeys (m : List (String × Nat)) : List String :=
  sortStrings (m.map (fun p => p.1))

/-- Go parseFDBKey.  The encoding/json unmarshalling of the payload is an
external primitive passed as jsonParse (none models a decode error, and a
field absent from the payload decodes to the empty string, the Go zero
value).  The prefix check and the missing-mac rejection are the
repository's logic. -/
def parseFDBKey (jsonParse : String → Option FdbEntryKey) (fdbKey : String) :
    Option FdbEntryKey :=
  let payload := trimPrefix asciiFDBEntryPrefix fdbKey
  if payload = "" ∨ payload = fdbKey then none
  else
    match jsonParse payload with
    | none => none
    | some entryKey => if entryKey.mac = "" then none else some entryKey

/-- Go resolveFDBVLANLabel: prefer the trimmed embedded VLAN value, then
the bvid lookup; otherwise the label is "unknown" and the Bool result
reports an unknown VLAN. -/
def resolveFDBVLANLabel (entryKey : FdbEntryKey) (bvidToVlan : List (String × String)) :
    String × Bool :=
  let vlanLabel := goTrim entryKey.vlan
  if vlanLabel ≠ "" then (vlanLabel, false)
  else
    let vlanLabel2 := slookup bvidToVlan (goTrim entryKey.bvid)
    if vlanLabel2 ≠ "" then (vlanLabel2, false)
    else ("unknown", true)

/-- Go normalizeFDBType: lowercase, trim, strip the SAI enumeration tag. -/
def normalizeFDBType (rawValue : String) : String :=
  trimPrefix "sai_fdb_entry_type_" (goTrim (goToLower rawValue))

/-- Go fdbCollector.portOidToNameMap: merge the port and LAG name maps,
reversing each hash into an oid-to-name mapping (port map first, LAG map
second, so LAG entries overwrite on oid collision, as in the Go code). -/
def portOidToNameMap (portNameMap lagNameMap : Hash) : List (String × String) :=
  let step := fun (m : List (String × String)) (p : String × String) => supdate m p.2 p.1
  lagNameMap.foldl step (portNameMap.foldl step [])

/-- Go fdbCollector.bvidToVlanMap: scan VLAN object keys, strip the prefix,
read the numeric VLAN id field; malformed keys and missing ids are counted
as skipped. -/
def bvidToVlanMap (db : String → Hash) (vlanKeys : List String) :
    List (String × String) × Nat :=
  vlanKeys.foldl
    (fun acc vlanKey =>
      let bvid := trimPrefix asciiVLANObjectPrefix vlanKey
      if bvid = "" ∨ bvid = vlanKey then (acc.1, acc.2 + 1)
      else
        let vlanID := goTrim (hget (db vlanKey) "SAI_VLAN_ATTR_VLAN_ID")
        if vlanID = "" then (acc.1, acc.2 + 1)
        else (supdate acc.1 bvid vlanID, acc.2))
    ([], 0)

/-- Go fdbCollector.bridgePortToPortMap: scan bridge port keys and resolve
each referenced port id through the oid-to-name map.  An empty port id is
dropped without skip accounting (as in the source); an unresolvable port
name counts as skipped. -/
def bridgePortToPortMap (db : String → Hash) (portOidToName : List (String × String))
    (bridgePortKeys : List String) : List (String × String) × Nat :=
  bridgePortKeys.foldl
    (fun acc bridgePortKey =>
      let bridgePortID := trimPrefix asciiBridgePortPrefix bridgePortKey
      if bridgePortID = "" ∨ bridgePortID = bridgePortKey then (acc.1, acc.2 + 1)
      else
        let portID := hget (db bridgePortKey) "SAI_BRIDGE_PORT_ATTR_PORT_ID"
        if portID = "" then acc
        else
          let portName := slookup portOidToName portID
          if portName = "" then (acc.1, acc.2 + 1)
          else (supdate acc.1 bridgePortID portName, acc.2))
    ([], 0)

/-- The (bvid, vlan-id) pair one VLAN object key contributes to
bvidToVlanMap when it passes the prefix check and carries a non-empty
trimmed id; none corresponds exactly to the two skip branches of the
bvidToVlanMap loop. -/
def bvidEntryOf (db : String → Hash) (vlanKey : String) : Option (String × String) :=
  let bvid := trimPrefix asciiVLANObjectPrefix vlanKey
  if bvid = "" ∨ bvid = vlanKey then none
  else
    let vlanID := goTrim (hget (db vlanKey) "SAI_VLAN_ATTR_VLAN_ID")
    if vlanID = "" then none
    else some (bvid, vlanID)

/-- Whether a VLAN object key takes a skip branch of the bvidToVlanMap
loop. -/
def isSkippedVlanObjKey (db : String → Hash) (vlanKey : String) : Bool :=
  decide (bvidEntryOf db vlanKey = none)

/-- The (bridge-port-id, port-name) pair one bridge port key contributes
to bridgePortToPortMap when it passes the prefix check, carries a port id
and resolves to a name; none covers both the skip branches and the silent
empty-port-id drop. -/
def bridgePortEntryOf (db : String → Hash) (portOidToName : List (String × String))
    (bridgePortKey : String) : Option (String × String) :=
  let bridgePortID := trimPrefix asciiBridgePortPrefix bridgePortKey
  if bridgePortID = "" ∨ bridgePortID = bridgePortKey then none
  else
    let portID := hget (db bridgePortKey) "SAI_BRIDGE_PORT_ATTR_PORT_ID"
    if portID = "" then none
    else
      let portName := slookup portOidToName portID
      if portName = "" then none
      else some (bridgePortID, portName)

/-- Whether a bridge port key takes one of the two skip branches of the
bridgePortToPortMap loop (an empty port id is dropped without skip
accounting and is therefore not counted here). -/
def isSkippedBridgePortKey (db : String → Hash) (portOidToName : List (String × String))
    (bridgePortKey : String) : Bool :=
  let bridgePortID := trimPrefix asciiBridgePortPrefix bridgePortKey
  decide ((bridgePortID = "" ∨ bridgePortID = bridgePortKey) ∨
    (hget (db bridgePortKey) "SAI_BRIDGE_PORT_ATTR_PORT_ID" ≠ "" ∧
      slookup portOidToName (hget (db bridgePortKey) "SAI_BRIDGE_PORT_ATTR_PORT_ID") = ""))

/-- Aggregation state of the forwarding-entry loop in
fdbCollector.scrapeMetrics. -/
structure FdbScrapeState where
  skipped : Nat
  truncated : Nat
  entriesTotal : Nat
  unknownVlan : Nat
  byVlan : List (String × Nat)
  byPort : List (String × Nat)
  byType : List (String × Nat)
deriving DecidableEq

/-- The body of one forwarding-entry iteration (below the max-entries
check): parse the key, fetch the entry hash, resolve the VLAN and port
labels and the entry type, then aggregate. -/
def fdbEntryStep (jsonParse : String → Option FdbEntryKey) (db : String → Hash)
    (bvidToVlan bridgePortToPort : List (String × String)) (st : FdbScrapeState)
    (fdbKey : String) : FdbScrapeState :=
  match parseFDBKey jsonParse fdbKey with
  | none => { st with skipped := st.skipped + 1 }
  | some parsedKey =>
      let fdbData := db fdbKey
      if hashIsEmpty fdbData then { st with skipped := st.skipped + 1 }
      else
        let resolved := resolveFDBVLANLabel parsedKey bvidToVlan
        let entryType0 := normalizeFDBType (hget fdbData "SAI_FDB_ENTRY_ATTR_TYPE")
        let entryType := if entryType0 = "" then "unknown" else entryType0
        let portLabel0 := slookup bridgePortToPort (hget fdbData "SAI_FDB_ENTRY_ATTR_BRIDGE_PORT_ID")
        let portLabel := if portLabel0 = "" then "unknown" else portLabel0
        { st with
            unknownVlan := st.unknownVlan + (if resolved.2 then 1 else 0)
            entriesTotal := st.entriesTotal + 1
            byVlan := bump st.byVlan resolved.1
            byPort := bump st.byPort portLabel
            byType := bump st.byType entryType }

/-- The indexed forwarding-entry loop: once the index reaches maxEntries the
truncated flag is raised, all remaining entries are added to the skip
counter, and the loop breaks. -/
def fdbEntriesLoop (jsonParse : String → Option FdbEntryKey) (db : String → Hash)
    (bvidToVlan bridgePortToPort : List (String × String)) (maxEntries : Nat) :
    List String → Nat → FdbScrapeState → FdbScrapeState
  | [], _, st => st
  | fdbKey :: rest, idx, st =>
      if idx ≥ maxEntries then
        { st with truncated := 1, skipped := st.skipped + (fdbKey :: rest).length }
      else
        fdbEntriesLoop jsonParse db bvidToVlan bridgePortToPort maxEntries rest (idx + 1)
          (fdbEntryStep jsonParse db bvidToVlan bridgePortToPort st fdbKey)

/-- The capped per-series emission loop over sorted map keys: once the
index reaches the cap the remaining keys are added to the skip counter and
the loop breaks. -/
def emitSeriesLoop (metricName : String) (counts : List (String × Nat)) (cap : Nat) :
    List String → Nat → List Metric × Nat → List Metric × Nat
  | [], _, acc => acc
  | k :: rest, idx, acc =>
      if idx ≥ cap then (acc.1, acc.2 + (k :: rest).length)
      else
        emitSeriesLoop metricName counts cap rest (idx + 1)
          (acc.1 ++ [⟨metricName, nlookup counts k, [k]⟩], acc.2)

/-- Result of fdbCollector.scrapeMetrics on the success path. -/
structure FdbResult where
  metrics : List Metric
  skipped : Nat
  truncated : Nat
deriving DecidableEq

/-- The emission phase of fdbCollector.scrapeMetrics, given the
aggregation state left by the entry loop: the totals header, the capped
per-VLAN and per-port series, the uncapped per-type series, and the final
skip counter. -/
def fdbEmitPhase (cfg : FdbConfig) (st : FdbScrapeState) : List Metric × Nat :=
  let headMetrics : List Metric :=
    [⟨"sonic_fdb_entries", st.entriesTotal, []⟩,
     ⟨"sonic_fdb_entries_unknown_vlan", st.unknownVlan, []⟩]
  let vlanPart := emitSeriesLoop "sonic_fdb_entries_by_vlan" st.byVlan cfg.maxVlans
    (sortedMapKeys st.byVlan) 0 ([], st.skipped)
  let portPart := emitSeriesLoop "sonic_fdb_entries_by_port" st.byPort cfg.maxPorts
    (sortedMapKeys st.byPort) 0 ([], vlanPart.2)
  let typeMetrics := (sortedMapKeys st.byType).map
    (fun entryType => (⟨"sonic_fdb_entries_by_type", nlookup st.byType entryType, [entryType]⟩ : Metric))
  (headMetrics ++ vlanPart.1 ++ portPart.1 ++ typeMetrics, portPart.2)

/-- fdbCollector.scrapeMetrics on the success path: build the three
cross-reference maps, walk the sorted forwarding-entry keys under the
raw-entry cap, then emit totals and the capped per-VLAN, per-port and
uncapped per-type series. -/
def fdbScrape (cfg : FdbConfig) (jsonParse : String → Option FdbEntryKey)
    (db : String → Hash) (portNameMap lagNameMap : Hash)
    (vlanObjKeys bridgePortKeys fdbKeys : List String) : FdbResult :=
  let portOidToName := portOidToNameMap portNameMap lagNameMap
  let bv := bvidToVlanMap db vlanObjKeys
  let bp := bridgePortToPortMap db portOidToName bridgePortKeys
  let st := fdbEntriesLoop jsonParse db bv.1 bp.1 cfg.maxEntries (sortStrings fdbKeys) 0
    ⟨bv.2 + bp.2, 0, 0, 0, [], [], []⟩
  { metrics := (fdbEmitPhase cfg st).1
    skipped := (fdbEmitPhase cfg st).2
    truncated := st.truncated }

/-! ## Environment parsing wrappers (lldp_collector.go) -/

/-- parseBoolEnv: the strconv.ParseBool primitive is external and passed as
a parameter; the wrapper logic (unset, empty, parse failure fall back to the
default) is the repository's. -/
def parseBoolEnv (parseBool : String → Option Bool) (env : Option String)
    (defaultValue : Bool) : Bool :=
  match env with
  | none => defaultValue
  | some value =>
      if value = "" then defaultValue
      else
        match parseBool value with
        | none => defaultValue
        | some parsedValue => parsedValue

/-- parseDurationEnv: durations as integer nanosecond counts; the
time.ParseDuration primitive is external.  Non-positive parses fall back to
the default. -/
def parseDurationEnv (parseDuration : String → Option Int) (env : Option String)
    (defaultValue : Int) : Int :=
  match env with
  | none => defaultValue
  | some value =>
      if value = "" then defaultValue
      else
        match parseDuration value with
        | none => defaultValue
        | some parsedValue => if parsedValue ≤ 0 then defaultValue else parsedValue

/-- parseIntEnv: the strconv.Atoi primitive is external.  Non-positive
parses fall back to the default. -/
def parseIntEnv (atoi : String → Option Int) (env : Option String)
    (defaultValue : Int) : Int :=
  match env with
  | none => defaultValue
  | some value =>
      if value = "" then defaultValue
      else
        match atoi value with
        | none => defaultValue
        | some parsedValue => if parsedValue ≤ 0 then defaultValue else parsedValue

/-! ## Order lemmas for the key sorts -/

theorem charToNat_injective : Function.Injective Char.toNat :=
  StrictMono.injective fun _ _ hab => hab

theorem charToNat_inj {a b : Char} (h : a.toNat = b.toNat) : a = b :=
  charToNat_injective h

theorem leChars_total : ∀ a b : List Char, leChars a b = true ∨ leChars b a = true := by
  intro a
  induction a with
  | nil => intro b; left; simp [leChars]
  | cons x xs ih =>
      intro b
      cases b with
      | nil => right; simp [leChars]
      | cons y ys =>
          by_cases hxy : x.toNat < y.toNat
          · left; simp [leChars, hxy]
          · by_cases hyx : y.toNat < x.toNat
            · right; simp [leChars, hyx]
            · rcases ih ys with h | h
              · left; simp [leChars, hxy, hyx, h]
              · right; simp [leChars, hxy, hyx, h]

theorem leChars_trans : ∀ a b c : List Char,
    leChars a b = true → leChars b c = true → leChars a c = true := by
  intro a
  induction a with
  | nil => intro b c _ _; simp [leChars]
  | cons x xs ih =>
      intro b c hab hbc
      cases b with
      | nil => simp [leChars] at hab
      | cons y ys =>
          cases c with
          | nil => simp [leChars] at hbc
          | cons z zs =>
              simp only [leChars] at hab hbc ⊢
              by_cases hxy : x.toNat < y.toNat
              · by_cases hyz : y.toNat < z.toNat
                · have : x.toNat < z.toNat := by omega
                  simp [this]
                · by_cases hzy : z.toNat < y.toNat
                  · simp [hyz, hzy] at hbc
                  · have : x.toNat < z.toNat := by omega
                    simp [this]
              · by_cases hyx : y.toNat < x.toNat
                · simp [hxy, hyx] at hab
                · have hxy' : x.toNat = y.toNat := by omega
                  by_cases hyz : y.toNat < z.toNat
                  · have : x.toNat < z.toNat := by omega
                    simp [this]
                  · by_cases hzy : z.toNat < y.toNat
                    · simp [hyz, hzy] at hbc
                    · have h1 : ¬ x.toNat < z.toNat := by omega
                      have h2 : ¬ z.toNat < x.toNat := by omega
                      rw [if_neg hxy, if_neg hyx] at hab
                      rw [if_neg hyz, if_neg hzy] at hbc
                      rw [if_neg h1, if_neg h2]
                      exact ih ys zs hab hbc

theorem leChars_antisymm : ∀ a b : List Char,
    leChars a b = true → leChars b a = true → a = b := by
  intro a
  induction a with
  | nil =>
      intro b _ hba
      cases b with
      | nil => rfl
      | cons y ys => simp [leChars] at hba
  | cons x xs ih =>
      intro b hab hba
      cases b with
      | nil => simp [leChars] at hab
      | cons y ys =>
          simp only [leChars] at hab hba
          by_cases hxy : x.toNat < y.toNat
          · have hyx : ¬ y.toNat < x.toNat := by omega
            simp [hxy, hyx] at hba
          · by_cases hyx : y.toNat < x.toNat
            · simp [hxy, hyx] at hab
            · have hx : x = y := charToNat_inj (by omega)
              subst hx
              simp only [hxy, hyx, if_neg, ite_false] at hab hba
              have := ih ys (by simpa [hxy] using hab) (by simpa [hxy] using hba)
              rw [this]

theorem leStringRel_isTotal : IsTotal String leStringRel :=
  ⟨fun a b => leChars_total a.data b.data⟩

theorem leStringRel_isTrans : IsTrans String leStringRel :=
  ⟨fun a b c => leChars_trans a.data b.data c.data⟩

theorem leStringRel_isAntisymm : IsAntisymm String leStringRel :=
  ⟨fun a b hab hba => String.ext (leChars_antisymm a.data b.data hab hba)⟩

theorem leMemberRel_isTotal : IsTotal VlanMemberEntry leMemberRel :=
  ⟨fun a b => leChars_total a.name.data b.name.data⟩

theorem leMemberRel_isTrans : IsTrans VlanMemberEntry leMemberRel :=
  ⟨fun a b c => leChars_trans a.name.data b.name.data c.name.data⟩

theorem sortStrings_perm (l : List String) : (sortStrings l).Perm l :=
  List.perm_insertionSort leStringRel l

theorem sortStrings_length (l : List String) : (sortStrings l).length = l.length :=
  (sortStrings_perm l).length_eq

theorem sortStrings_sorted (l : List String) : List.Sorted leStringRel (sortStrings l) :=
  @List.sorted_insertionSort String leStringRel _ leStringRel_isTotal leStringRel_isTrans l

theorem sortMembers_perm (ms : List VlanMemberEntry) : (sortMembers ms).Perm ms :=
  List.perm_insertionSort leMemberRel ms

theorem sortMembers_sorted (ms : List VlanMemberEntry) :
    List.Sorted leMemberRel (sortMembers ms) :=
  @List.sorted_insertionSort VlanMemberEntry leMemberRel _ leMemberRel_isTotal leMemberRel_isTrans ms

theorem sortStrings_eq_of_perm {l₁ l₂ : List String} (h : l₁.Perm l₂) :
    sortStrings l₁ = sortStrings l₂ :=
  @List.eq_of_perm_of_sorted String leStringRel leStringRel_isAntisymm _ _
    (((sortStrings_perm l₁).trans h).trans (sortStrings_perm l₂).symm)
    (sortStrings_sorted l₁) (sortStrings_sorted l₂)

theorem sorted_perm_eq_of_nodup_names :
    ∀ (l₁ l₂ : List VlanMemberEntry), l₁.Perm l₂ →
      List.Sorted leMemberRel l₁ → List.Sorted leMemberRel l₂ →
      (l₁.map VlanMemberEntry.name).Nodup → l₁ = l₂ := by
  intro l₁
  induction l₁ with
  | nil =>
      intro l₂ hp _ _ _
      exact List.Perm.nil_eq hp
  | cons a t₁ ih =>
      intro l₂ hp hs₁ hs₂ hnd
      cases l₂ with
      | nil => exact absurd hp.symm (by simp)
      | cons b t₂ =>
          have hab : a = b := by
            by_contra hne
            have hbmem : b ∈ a :: t₁ := hp.mem_iff.mpr (List.mem_cons_self b t₂)
            have hamem : a ∈ b :: t₂ := hp.mem_iff.mp (List.mem_cons_self a t₁)
            have hb : b ∈ t₁ := by
              rcases List.mem_cons.mp hbmem with h | h
              · exact absurd h.symm hne
              · exact h
            have ha : a ∈ t₂ := by
              rcases List.mem_cons.mp hamem with h | h
              · exact absurd h hne
              · exact h
            have h₁ : leMemberRel a b := (List.sorted_cons.mp hs₁).1 b hb
            have h₂ : leMemberRel b a := (List.sorted_cons.mp hs₂).1 a ha
            have hnames : a.name = b.name :=
              String.ext (leChars_antisymm a.name.data b.name.data h₁ h₂)
            have : a.name ∈ t₁.map VlanMemberEntry.name := by
              rw [hnames]
              exact List.mem_map_of_mem VlanMemberEntry.name hb
            exact (List.nodup_cons.mp hnd).1 this
          subst hab
          have ht : t₁.Perm t₂ := hp.cons_inv
          have := ih t₂ ht (List.sorted_cons.mp hs₁).2 (List.sorted_cons.mp hs₂).2
            (List.nodup_cons.mp hnd).2
          rw [this]

theorem sortMembers_eq_of_perm {l₁ l₂ : List VlanMemberEntry} (h : l₁.Perm l₂)
    (hnd : (l₁.map VlanMemberEntry.name).Nodup) : sortMembers l₁ = sortMembers l₂ :=
  sorted_perm_eq_of_nodup_names _ _
    (((sortMembers_perm l₁).trans h).trans (sortMembers_perm l₂).symm)
    (sortMembers_sorted l₁) (sortMembers_sorted l₂)
    ((List.Perm.map VlanMemberEntry.name (sortMembers_perm l₁)).nodup_iff.mpr hnd)

/-! ## C5: status-to-gauge conversion -/

/-- C5: statusToGauge returns 1 exactly when the trimmed, lowercased value
is one of the six vocabulary words, is always 0 or 1 (hence 0 for every
other value), and in particular maps "SELECTED" to 1 and "" to 0. -/
theorem status_gauge_vocabulary :
    (∀ s : String,
      (statusToGauge s = 1 ↔
        goToLower (goTrim s) ∈ (["up", "enabled", "selected", "active", "true", "ok"] : List String)) ∧
      (statusToGauge s = 1 ∨ statusToGauge s = 0)) ∧
    statusToGauge "SELECTED" = 1 ∧ statusToGauge "" = 0 := by
  refine ⟨fun s => ?_, by decide, by decide⟩
  by_cases hc : goToLower (goTrim s) = "up" ∨ goToLower (goTrim s) = "enabled" ∨
      goToLower (goTrim s) = "selected" ∨ goToLower (goTrim s) = "active" ∨
      goToLower (goTrim s) = "true" ∨ goToLower (goTrim s) = "ok"
  · constructor
    · constructor
      · intro _
        simpa using hc
      · intro _
        simp [statusToGauge, hc]
    · left
      simp [statusToGauge, hc]
  · constructor
    · constructor
      · intro h1
        simp [statusToGauge, hc] at h1
      · intro hmem
        exact absurd (by simpa using hmem) hc
    · right
      simp [statusToGauge, hc]

/-- C5 witness: the vocabulary equivalence applied at a concrete mixed-case
padded input and at a non-vocabulary input. -/
theorem status_gauge_vocabulary_witness :
    statusToGauge " seLecTeD " = 1 ∧ statusToGauge "down" = 0 := by
  constructor
  · exact ((status_gauge_vocabulary.1 " seLecTeD ").1).mpr (by decide)
  · rcases (status_gauge_vocabulary.1 "down").2 with h | h
    · exact absurd (((status_gauge_vocabulary.1 "down").1).mp h) (by decide)
    · exact h

/-! ## C2: stale-on-failure refresh semantics -/

/-- C2: a refresh cycle whose producer errors leaves the cached snapshot,
the skipped-entries count and the last-refresh timestamp unchanged, sets
the success flag to 0, readers continue to see the previous snapshot, and
after a successful cycle 1 followed by a failing cycle 2 the snapshot
equals the one committed by cycle 1. -/
theorem stale_on_failure_refresh :
    ∀ (st : CacheState) (msg : String) (dur now : Nat),
      (refreshStep st (.error msg) dur now).cachedMetrics = st.cachedMetrics ∧
      (refreshStep st (.error msg) dur now).lastSkippedEntries = st.lastSkippedEntries ∧
      (refreshStep st (.error msg) dur now).lastRefreshTime = st.lastRefreshTime ∧
      (refreshStep st (.error msg) dur now).lastSuccess = 0 ∧
      collectRead (refreshStep st (.error msg) dur now) = collectRead st ∧
      ∀ (metrics : List Metric) (skipped d1 n1 : Nat),
        (refreshStep (refreshStep st (.ok (metrics, skipped)) d1 n1) (.error msg) dur now).cachedMetrics
          = metrics ∧
        (refreshStep (refreshStep st (.ok (metrics, skipped)) d1 n1) (.error msg) dur now).lastSuccess
          = 0 := by
  intro st msg dur now
  exact ⟨rfl, rfl, rfl, rfl, rfl, fun metrics skipped d1 n1 => ⟨rfl, rfl⟩⟩

/-! ## C9: environment parsing fallback behavior -/

/-- C9: each env wrapper returns the supplied default when the variable is
unset, empty, unparsable, or (for durations and integer caps) non-positive,
and returns a parsed value only when the value is non-empty, well-formed
and, where applicable, strictly positive. -/
theorem env_parse_fallback_to_default :
    ∀ (parseBool : String → Option Bool) (parseDuration atoi : String → Option Int)
      (bDefault : Bool) (dDefault iDefault : Int),
      (parseBoolEnv parseBool none bDefault = bDefault ∧
        parseDurationEnv parseDuration none dDefault = dDefault ∧
        parseIntEnv atoi none iDefault = iDefault) ∧
      (parseBoolEnv parseBool (some "") bDefault = bDefault ∧
        parseDurationEnv parseDuration (some "") dDefault = dDefault ∧
        parseIntEnv atoi (some "") iDefault = iDefault) ∧
      (∀ v, parseBool v = none → parseBoolEnv parseBool (some v) bDefault = bDefault) ∧
      (∀ v, parseDuration v = none → parseDurationEnv parseDuration (some v) dDefault = dDefault) ∧
      (∀ v, atoi v = none → parseIntEnv atoi (some v) iDefault = iDefault) ∧
      (∀ v n, parseDuration v = some n → n ≤ 0 →
        parseDurationEnv parseDuration (some v) dDefault = dDefault) ∧
      (∀ v n, atoi v = some n → n ≤ 0 → parseIntEnv atoi (some v) iDefault = iDefault) ∧
      (∀ env, parseBoolEnv parseBool env bDefault = bDefault ∨
        ∃ v b, env = some v ∧ v ≠ "" ∧ parseBool v = some b ∧
          parseBoolEnv parseBool env bDefault = b) ∧
      (∀ env, parseDurationEnv parseDuration env dDefault = dDefault ∨
        ∃ v n, env = some v ∧ v ≠ "" ∧ parseDuration v = some n ∧ 0 < n ∧
          parseDurationEnv parseDuration env dDefault = n) ∧
      (∀ env, parseIntEnv atoi env iDefault = iDefault ∨
        ∃ v n, env = some v ∧ v ≠ "" ∧ atoi v = some n ∧ 0 < n ∧
          parseIntEnv atoi env iDefault = n) := by
  intro parseBool parseDuration atoi bDefault dDefault iDefault
  refine ⟨⟨rfl, rfl, rfl⟩, ⟨rfl, rfl, rfl⟩, ?_, ?_, ?_, ?_, ?_, ?_, ?_, ?_⟩
  · intro v hv
    by_cases hve : v = "" <;> simp [parseBoolEnv, hve, hv]
  · intro v hv
    by_cases hve : v = "" <;> simp [parseDurationEnv, hve, hv]
  · intro v hv
    by_cases hve : v = "" <;> simp [parseIntEnv, hve, hv]
  · intro v n hv hn
    by_cases hve : v = "" <;> simp [parseDurationEnv, hve, hv, hn]
  · intro v n hv hn
    by_cases hve : v = "" <;> simp [parseIntEnv, hve, hv, hn]
  · intro env
    match env with
    | none => exact Or.inl rfl
    | some v =>
        by_cases hve : v = ""
        · exact Or.inl (by simp [parseBoolEnv, hve])
        · match hp : parseBool v with
          | none => exact Or.inl (by simp [parseBoolEnv, hve, hp])
          | some b => exact Or.inr ⟨v, b, rfl, hve, hp, by simp [parseBoolEnv, hve, hp]⟩
  · intro env
    match env with
    | none => exact Or.inl rfl
    | some v =>
        by_cases hve : v = ""
        · exact Or.inl (by simp [parseDurationEnv, hve])
        · match hp : parseDuration v with
          | none => exact Or.inl (by simp [parseDurationEnv, hve, hp])
          | some n =>
              by_cases hn : n ≤ 0
              · exact Or.inl (by simp [parseDurationEnv, hve, hp, hn])
              · exact Or.inr ⟨v, n, rfl, hve, hp, by omega, by simp [parseDurationEnv, hve, hp, hn]⟩
  · intro env
    match env with
    | none => exact Or.inl rfl
    | some v =>
        by_cases hve : v = ""
        · exact Or.inl (by simp [parseIntEnv, hve])
        · match hp : atoi v with
          | none => exact Or.inl (by simp [parseIntEnv, hve, hp])
          | some n =>
              by_cases hn : n ≤ 0
              · exact Or.inl (by simp [parseIntEnv, hve, hp, hn])
              · exact Or.inr ⟨v, n, rfl, hve, hp, by omega, by simp [parseIntEnv, hve, hp, hn]⟩

/-- C9 witness: the fallback behavior at concrete primitive parsers and
values (unparsable bool, negative integer, positive integer). -/
theorem env_parse_fallback_witness :
    parseBoolEnv (fun _ => none) (some "x") true = true ∧
    parseIntEnv (fun s => if s = "-3" then some (-3) else if s = "5" then some 5 else none)
      (some "-3") 7 = 7 ∧
    parseIntEnv (fun s => if s = "-3" then some (-3) else if s = "5" then some 5 else none)
      (some "5") 7 = 5 := by
  refine ⟨?_, ?_, ?_⟩
  · exact (env_parse_fallback_to_default (fun _ => none) (fun _ => none) (fun _ => none)
      true 0 0).2.2.1 "x" rfl
  · exact (env_parse_fallback_to_default (fun _ => none) (fun _ => none)
      (fun s => if s = "-3" then some (-3) else if s = "5" then some 5 else none)
      true 0 7).2.2.2.2.2.2.1 "-3" (-3) (by decide) (by decide)
  · rcases (env_parse_fallback_to_default (fun _ => none) (fun _ => none)
      (fun s => if s = "-3" then some (-3) else if s = "5" then some 5 else none)
      true 0 7).2.2.2.2.2.2.2.2.2 (some "5") with h | h
    · exact absurd h (by decide)
    · rcases h with ⟨v, n, hv, _, hp, _, hr⟩
      have hv5 : v = "5" := by
        injection hv with hv
        exact hv.symm
      subst hv5
      have hn5 : n = 5 := by
        have := hp
        simp at this
        omega
      rw [hr, hn5]

/-! ## C1: per-entry accounting in the LLDP pipeline -/

theorem lldpStep_accounting (cfg : LldpConfig) (db : String → Hash)
    (st : LldpScrapeResult) (key : String) (h : cfg.includeMgmt = true) :
    (lldpStep cfg db st key).neighbors + (lldpStep cfg db st key).skipped
        = st.neighbors + st.skipped + 1 ∧
    (lldpStep cfg db st key).metrics.length + (lldpStep cfg db st key).skipped
        = st.metrics.length + st.skipped + 1 := by
  have h3 : ¬ (cfg.includeMgmt = false ∧ trimPrefix "LLDP_ENTRY_TABLE:" key = "eth0") := by
    simp [h]
  by_cases h1 : st.neighbors ≥ cfg.maxNeighbors
  · simp only [lldpStep, if_pos h1]
    omega
  · by_cases h2 : trimPrefix "LLDP_ENTRY_TABLE:" key = "" ∨
        trimPrefix "LLDP_ENTRY_TABLE:" key = key
    · simp only [lldpStep, if_neg h1, if_pos h2]
      omega
    · by_cases h4 : hashIsEmpty (db key) = true
      · simp only [lldpStep, if_neg h1, if_neg h2, if_neg h3, if_pos h4]
        omega
      · by_cases h5 : hget (db key) "lldp_rem_sys_name" = "" ∧
            hget (db key) "lldp_rem_port_id" = "" ∧ hget (db key) "lldp_rem_port_desc" = "" ∧
            hget (db key) "lldp_rem_chassis_id" = "" ∧ hget (db key) "lldp_rem_man_addr" = ""
        · simp only [lldpStep, if_neg h1, if_neg h2, if_neg h3, if_neg h4, if_pos h5]
          omega
        · simp only [lldpStep, if_neg h1, if_neg h2, if_neg h3, if_neg h4, if_neg h5]
          simp
          omega

theorem lldpFold_accounting (cfg : LldpConfig) (db : String → Hash)
    (h : cfg.includeMgmt = true) :
    ∀ (keys : List String) (st : LldpScrapeResult),
      ((keys.foldl (lldpStep cfg db) st).neighbors + (keys.foldl (lldpStep cfg db) st).skipped
        = st.neighbors + st.skipped + keys.length) ∧
      ((keys.foldl (lldpStep cfg db) st).metrics.length + (keys.foldl (lldpStep cfg db) st).skipped
        = st.metrics.length + st.skipped + keys.length) := by
  intro keys
  induction keys with
  | nil => intro st; exact ⟨by simp, by simp⟩
  | cons k ks ih =>
      intro st
      have hstep := lldpStep_accounting cfg db st k h
      have hrec := ih (lldpStep cfg db st k)
      simp only [List.foldl_cons, List.length_cons]
      exact ⟨by omega, by omega⟩

/-- C1 counterexample: with the management filter active
(includeMgmt = false), the single scanned key LLDP_ENTRY_TABLE:eth0 backed
by a non-empty hash produces no metric record yet is not counted in
skippedCount, so emitted entries plus skipped entries is 0, not the input
total 1. -/
theorem lldp_uncounted_mgmt_drop :
    ¬ ((lldpScrape ⟨false, 512⟩
          (fun k => if k = "LLDP_ENTRY_TABLE:eth0" then [("lldp_rem_sys_name", "sw1")] else [])
          ["LLDP_ENTRY_TABLE:eth0"]).metrics.length +
        (lldpScrape ⟨false, 512⟩
          (fun k => if k = "LLDP_ENTRY_TABLE:eth0" then [("lldp_rem_sys_name", "sw1")] else [])
          ["LLDP_ENTRY_TABLE:eth0"]).skipped
        = (["LLDP_ENTRY_TABLE:eth0"] : List String).length) := by
  decide

/-- C1 amended: in the LLDP pipeline, when the management interface is
included (includeMgmt = true), every scanned key either produces exactly
one neighbor record or increments skippedCount, so emitted records plus
skipped entries equals the total scanned keys (and the neighbor counter
equals the emitted record count); keys excluded by the management filter
when includeMgmt = false are dropped without being counted. -/
theorem lldp_accounting_with_mgmt_included (cfg : LldpConfig) (db : String → Hash)
    (keys : List String) (h : cfg.includeMgmt = true) :
    (lldpScrape cfg db keys).metrics.length + (lldpScrape cfg db keys).skipped = keys.length ∧
    (lldpScrape cfg db keys).neighbors + (lldpScrape cfg db keys).skipped = keys.length := by
  have hfold := lldpFold_accounting cfg db h (sortStrings keys) ⟨[], 0, 0⟩
  unfold lldpScrape
  have hlen := sortStrings_length keys
  simp only [List.length_nil] at hfold
  exact ⟨by omega, by omega⟩

/-- C1 witness: the amended accounting applied to a concrete three-key scan
with one malformed key and one empty-hash key. -/
theorem lldp_accounting_witness :
    ((lldpScrape ⟨true, 512⟩
        (fun k => if k = "LLDP_ENTRY_TABLE:Ethernet0" then [("lldp_rem_sys_name", "peer1")] else [])
        ["LLDP_ENTRY_TABLE:Ethernet0", "BADKEY", "LLDP_ENTRY_TABLE:Ethernet4"]).metrics.length +
      (lldpScrape ⟨true, 512⟩
        (fun k => if k = "LLDP_ENTRY_TABLE:Ethernet0" then [("lldp_rem_sys_name", "peer1")] else [])
        ["LLDP_ENTRY_TABLE:Ethernet0", "BADKEY", "LLDP_ENTRY_TABLE:Ethernet4"]).skipped
      = 3) := by
  exact (lldp_accounting_with_mgmt_included ⟨true, 512⟩
    (fun k => if k = "LLDP_ENTRY_TABLE:Ethernet0" then [("lldp_rem_sys_name", "peer1")] else [])
    ["LLDP_ENTRY_TABLE:Ethernet0", "BADKEY", "LLDP_ENTRY_TABLE:Ethernet4"] rfl).1

/-! ## C3 and C6: the member walk of one parent -/

theorem memberFold_spec (cfg : VlanConfig) (v : String) :
    ∀ (ms : List VlanMemberEntry) (st : MemberFoldState),
      st.processedMembers ≤ cfg.maxMembers →
      ((ms.foldl (memberStep cfg v) st).processedMembers
          = min cfg.maxMembers (st.processedMembers + ms.length)) ∧
      ((ms.foldl (memberStep cfg v) st).memberCount
          = st.memberCount
            + ((ms.foldl (memberStep cfg v) st).processedMembers - st.processedMembers)) ∧
      ((ms.foldl (memberStep cfg v) st).skipped
          = st.skipped
            + (st.processedMembers + ms.length - (ms.foldl (memberStep cfg v) st).processedMembers)) ∧
      ((ms.foldl (memberStep cfg v) st).metrics
          = st.metrics ++
            (ms.take ((ms.foldl (memberStep cfg v) st).processedMembers - st.processedMembers)).map
              (fun m => ⟨"sonic_vlan_member_info", 1, [v, m.name, m.taggingMode]⟩)) := by
  intro ms
  induction ms with
  | nil =>
      intro st h
      refine ⟨by simp; omega, by simp, by simp, by simp⟩
  | cons m ms ih =>
      intro st h
      by_cases hc : st.processedMembers ≥ cfg.maxMembers
      · have hstep : memberStep cfg v st m = { st with skipped := st.skipped + 1 } := by
          simp only [memberStep, if_pos hc]
        have hrec := ih { st with skipped := st.skipped + 1 } (by simpa using h)
        simp only [List.foldl_cons, hstep]
        simp only at hrec
        obtain ⟨h1, h2, h3, h4⟩ := hrec
        have hpm : ({ st with skipped := st.skipped + 1 } : MemberFoldState).processedMembers
            = st.processedMembers := rfl
        refine ⟨by simp only [List.length_cons]; omega, by omega, ?_, ?_⟩
        · simp only [List.length_cons]
          omega
        · rw [h4]
          have hz : (ms.foldl (memberStep cfg v) { st with skipped := st.skipped + 1 }).processedMembers
              - st.processedMembers = 0 := by omega
          rw [hz]
          simp
      · have hstep : memberStep cfg v st m =
            { st with
                metrics := st.metrics ++
                  [⟨"sonic_vlan_member_info", 1, [v, m.name, m.taggingMode]⟩],
                processedMembers := st.processedMembers + 1,
                memberCount := st.memberCount + 1 } := by
          simp only [memberStep, if_neg hc]
        have hrec := ih
          { st with
              metrics := st.metrics ++
                [⟨"sonic_vlan_member_info", 1, [v, m.name, m.taggingMode]⟩],
              processedMembers := st.processedMembers + 1,
              memberCount := st.memberCount + 1 } (by simp; omega)
        simp only [List.foldl_cons, hstep]
        simp only at hrec
        obtain ⟨h1, h2, h3, h4⟩ := hrec
        have hge : (ms.foldl (memberStep cfg v)
            { st with
                metrics := st.metrics ++
                  [⟨"sonic_vlan_member_info", 1, [v, m.name, m.taggingMode]⟩],
                processedMembers := st.processedMembers + 1,
                memberCount := st.memberCount + 1 }).processedMembers
            ≥ st.processedMembers + 1 := by omega
        refine ⟨by simp only [List.length_cons]; omega, by omega, ?_, ?_⟩
        · simp only [List.length_cons]
          omega
        · rw [h4]
          have hk : (ms.foldl (memberStep cfg v)
              { st with
                  metrics := st.metrics ++
                    [⟨"sonic_vlan_member_info", 1, [v, m.name, m.taggingMode]⟩],
                  processedMembers := st.processedMembers + 1,
                  memberCount := st.memberCount + 1 }).processedMembers - st.processedMembers
              = ((ms.foldl (memberStep cfg v)
                  { st with
                      metrics := st.metrics ++
                        [⟨"sonic_vlan_member_info", 1, [v, m.name, m.taggingMode]⟩],
                      processedMembers := st.processedMembers + 1,
                      memberCount := st.memberCount + 1 }).processedMembers
                - (st.processedMembers + 1)) + 1 := by omega
          rw [hk]
          simp [List.take_succ_cons]

theorem processVlan_spec (cfg : VlanConfig) (dbC dbA : String → Hash)
    (mo : String → List VlanMemberEntry) (st : VlanScrapeState) (v : String)
    (hv : st.processedVlans < cfg.maxVlans) (hm : st.processedMembers ≤ cfg.maxMembers) :
    processVlan cfg dbC dbA mo st v =
      { metrics := st.metrics
          ++ [⟨"sonic_vlan_info", 1,
                [v, firstNonEmpty [hget (dbC ("VLAN|" ++ v)) "vlanid", trimPrefix "Vlan" v]]⟩]
          ++ (if firstNonEmpty [hget (dbA ("VLAN_TABLE:" ++ v)) "admin_status",
                  hget (dbC ("VLAN|" ++ v)) "admin_status"] ≠ ""
              then [⟨"sonic_vlan_admin_status",
                      statusToGauge (firstNonEmpty [hget (dbA ("VLAN_TABLE:" ++ v)) "admin_status",
                        hget (dbC ("VLAN|" ++ v)) "admin_status"]), [v]⟩]
              else [])
          ++ (if hget (dbA ("VLAN_TABLE:" ++ v)) "oper_status" ≠ ""
              then [⟨"sonic_vlan_oper_status",
                      statusToGauge (hget (dbA ("VLAN_TABLE:" ++ v)) "oper_status"), [v]⟩]
              else [])
          ++ ((sortMembers (mo v)).take
                (min (cfg.maxMembers - st.processedMembers) (sortMembers (mo v)).length)).map
              (fun m => ⟨"sonic_vlan_member_info", 1, [v, m.name, m.taggingMode]⟩)
          ++ [⟨"sonic_vlan_members",
                min (cfg.maxMembers - st.processedMembers) (sortMembers (mo v)).length, [v]⟩]
        skipped := st.skipped
          + ((sortMembers (mo v)).length
              - min (cfg.maxMembers - st.processedMembers) (sortMembers (mo v)).length)
        processedVlans := st.processedVlans + 1
        processedMembers := st.processedMembers
          + min (cfg.maxMembers - st.processedMembers) (sortMembers (mo v)).length } := by
  have hnv : ¬ st.processedVlans ≥ cfg.maxVlans := by omega
  obtain ⟨h1, h2, h3, h4⟩ := memberFold_spec cfg v (sortMembers (mo v))
    ⟨st.metrics
        ++ [⟨"sonic_vlan_info", 1,
              [v, firstNonEmpty [hget (dbC ("VLAN|" ++ v)) "vlanid", trimPrefix "Vlan" v]]⟩]
        ++ (if firstNonEmpty [hget (dbA ("VLAN_TABLE:" ++ v)) "admin_status",
                hget (dbC ("VLAN|" ++ v)) "admin_status"] ≠ ""
            then [⟨"sonic_vlan_admin_status",
                    statusToGauge (firstNonEmpty [hget (dbA ("VLAN_TABLE:" ++ v)) "admin_status",
                      hget (dbC ("VLAN|" ++ v)) "admin_status"]), [v]⟩]
            else [])
        ++ (if hget (dbA ("VLAN_TABLE:" ++ v)) "oper_status" ≠ ""
            then [⟨"sonic_vlan_oper_status",
                    statusToGauge (hget (dbA ("VLAN_TABLE:" ++ v)) "oper_status"), [v]⟩]
            else []),
      st.skipped, st.processedMembers, 0⟩ hm
  have hEq : min cfg.maxMembers (st.processedMembers + (sortMembers (mo v)).length)
      - st.processedMembers
      = min (cfg.maxMembers - st.processedMembers) (sortMembers (mo v)).length := by
    omega
  simp only [processVlan, if_neg hnv]
  rw [h4, h2, h3, h1, hEq]
  simp only [VlanScrapeState.mk.injEq]
  refine ⟨?_, by omega, by trivial, by omega⟩
  simp [List.append_assoc]

theorem processVlan_pm_le (cfg : VlanConfig) (dbC dbA : String → Hash)
    (mo : String → List VlanMemberEntry) (st : VlanScrapeState) (v : String)
    (h : st.processedMembers ≤ cfg.maxMembers) :
    (processVlan cfg dbC dbA mo st v).processedMembers ≤ cfg.maxMembers := by
  by_cases hv : st.processedVlans ≥ cfg.maxVlans
  · simp only [processVlan, if_pos hv]
    exact h
  · rw [processVlan_spec cfg dbC dbA mo st v (by omega) h]
    simp only
    omega

theorem vlanFold_pm_le (cfg : VlanConfig) (dbC dbA : String → Hash)
    (mo : String → List VlanMemberEntry) :
    ∀ (names : List String) (st : VlanScrapeState),
      st.processedMembers ≤ cfg.maxMembers →
      (names.foldl (processVlan cfg dbC dbA mo) st).processedMembers ≤ cfg.maxMembers := by
  intro names
  induction names with
  | nil => intro st h; simpa using h
  | cons n ns ih =>
      intro st h
      simp only [List.foldl_cons]
      exact ih _ (processVlan_pm_le cfg dbC dbA mo st n h)

/-- C3 counterexample: with maxMembers = 1 and two parents that each have
exactly one child (so no parent exceeds a per-parent ceiling of 1), the
lexicographically second parent's only child is skipped (skip counter 1)
and its member record is absent, while its member-count record reports 0:
the cap is not applied per parent. -/
theorem member_cap_not_per_parent :
    (vlanScrape ⟨1024, 1⟩
        (fun k =>
          if k = "VLAN|Vlan10" then [("vlanid", "10")]
          else if k = "VLAN|Vlan20" then [("vlanid", "20")]
          else if k = "VLAN_MEMBER|Vlan10|Ethernet1" then [("tagging_mode", "untagged")]
          else if k = "VLAN_MEMBER|Vlan20|Ethernet2" then [("tagging_mode", "untagged")]
          else [])
        (fun _ => [])
        ["VLAN|Vlan10", "VLAN|Vlan20"] []
        ["VLAN_MEMBER|Vlan10|Ethernet1", "VLAN_MEMBER|Vlan20|Ethernet2"]).skipped = 1 ∧
    (⟨"sonic_vlan_member_info", 1, ["Vlan20", "Ethernet2", "untagged"]⟩ : Metric)
        ∉ (vlanScrape ⟨1024, 1⟩
            (fun k =>
              if k = "VLAN|Vlan10" then [("vlanid", "10")]
              else if k = "VLAN|Vlan20" then [("vlanid", "20")]
              else if k = "VLAN_MEMBER|Vlan10|Ethernet1" then [("tagging_mode", "untagged")]
              else if k = "VLAN_MEMBER|Vlan20|Ethernet2" then [("tagging_mode", "untagged")]
              else [])
            (fun _ => [])
            ["VLAN|Vlan10", "VLAN|Vlan20"] []
            ["VLAN_MEMBER|Vlan10|Ethernet1", "VLAN_MEMBER|Vlan20|Ethernet2"]).metrics ∧
    (⟨"sonic_vlan_members", 0, ["Vlan20"]⟩ : Metric)
        ∈ (vlanScrape ⟨1024, 1⟩
            (fun k =>
              if k = "VLAN|Vlan10" then [("vlanid", "10")]
              else if k = "VLAN|Vlan20" then [("vlanid", "20")]
              else if k = "VLAN_MEMBER|Vlan10|Ethernet1" then [("tagging_mode", "untagged")]
              else if k = "VLAN_MEMBER|Vlan20|Ethernet2" then [("tagging_mode", "untagged")]
              else [])
            (fun _ => [])
            ["VLAN|Vlan10", "VLAN|Vlan20"] []
            ["VLAN_MEMBER|Vlan10|Ethernet1", "VLAN_MEMBER|Vlan20|Ethernet2"]).metrics := by
  refine ⟨by decide, by decide, by decide⟩

/-- C3 amended: the configured member cap is a cycle-global ceiling on the
total number of emitted members, not a per-parent one.  Walking one parent
inside the entity cap with a global emitted-member count c ≤ maxMembers
emits exactly the first min(maxMembers − c, children) sorted children (each
emitted child is in the snapshot), skips and counts the rest, and advances
the global counter accordingly; the global counter never exceeds
maxMembers over a whole refresh cycle. -/
theorem member_cap_global_characterization :
    (∀ (cfg : VlanConfig) (dbC dbA : String → Hash) (mo : String → List VlanMemberEntry)
        (st : VlanScrapeState) (v : String),
      st.processedVlans < cfg.maxVlans → st.processedMembers ≤ cfg.maxMembers →
      (processVlan cfg dbC dbA mo st v).processedMembers
          = st.processedMembers
            + min (cfg.maxMembers - st.processedMembers) (sortMembers (mo v)).length ∧
      (processVlan cfg dbC dbA mo st v).skipped
          = st.skipped
            + ((sortMembers (mo v)).length
                - min (cfg.maxMembers - st.processedMembers) (sortMembers (mo v)).length) ∧
      ∀ m ∈ (sortMembers (mo v)).take
            (min (cfg.maxMembers - st.processedMembers) (sortMembers (mo v)).length),
        (⟨"sonic_vlan_member_info", 1, [v, m.name, m.taggingMode]⟩ : Metric)
          ∈ (processVlan cfg dbC dbA mo st v).metrics) ∧
    ∀ (cfg : VlanConfig) (dbC dbA : String → Hash) (configKeys applKeys memberKeys : List String),
      (vlanScrape cfg dbC dbA configKeys applKeys memberKeys).processedMembers
        ≤ cfg.maxMembers := by
  constructor
  · intro cfg dbC dbA mo st v hv hm
    rw [processVlan_spec cfg dbC dbA mo st v hv hm]
    refine ⟨by simp only, by simp only, ?_⟩
    intro m hmem
    simp only [List.mem_append]
    left
    right
    exact List.mem_map_of_mem _ hmem
  · intro cfg dbC dbA configKeys applKeys memberKeys
    unfold vlanScrape
    exact vlanFold_pm_le cfg dbC dbA _ _ _ (by simp)

/-- C3 witness: the per-parent characterization applied to a parent with
three children under a global budget of two remaining member slots: two
children emitted, one skipped. -/
theorem member_cap_global_witness :
    (processVlan ⟨4, 2⟩ (fun _ => []) (fun _ => [])
        (fun _ => [⟨"e2", "t"⟩, ⟨"e1", "t"⟩, ⟨"e3", "t"⟩])
        ⟨[], 0, 0, 0⟩ "Vlan7").processedMembers = 2 ∧
    (processVlan ⟨4, 2⟩ (fun _ => []) (fun _ => [])
        (fun _ => [⟨"e2", "t"⟩, ⟨"e1", "t"⟩, ⟨"e3", "t"⟩])
        ⟨[], 0, 0, 0⟩ "Vlan7").skipped = 1 := by
  have h := member_cap_global_characterization.1 ⟨4, 2⟩ (fun _ => []) (fun _ => [])
    (fun _ => [⟨"e2", "t"⟩, ⟨"e1", "t"⟩, ⟨"e3", "t"⟩])
    ⟨[], 0, 0, 0⟩ "Vlan7" (by decide) (by decide)
  refine ⟨?_, ?_⟩
  · rw [h.1]
    decide
  · rw [h.2.1]
    decide

/-- C6: for a parent processed inside the entity cap, the emitted
member-count record's value equals the number of member records actually
emitted for that parent in this cycle, and a parent with no children still
emits its identity record and a member-count record of zero. -/
theorem member_count_reflects_emitted (cfg : VlanConfig) (dbC dbA : String → Hash)
    (mo : String → List VlanMemberEntry) (st : VlanScrapeState) (v : String)
    (hv : st.processedVlans < cfg.maxVlans) (hm : st.processedMembers ≤ cfg.maxMembers) :
    ∃ appended,
      (processVlan cfg dbC dbA mo st v).metrics = st.metrics ++ appended ∧
      appended.getLast? = some ⟨"sonic_vlan_members",
        appended.countP (fun m => decide (m.name = "sonic_vlan_member_info")), [v]⟩ ∧
      (mo v = [] →
        (processVlan cfg dbC dbA mo st v).metrics
          = st.metrics
            ++ [⟨"sonic_vlan_info", 1,
                  [v, firstNonEmpty [hget (dbC ("VLAN|" ++ v)) "vlanid", trimPrefix "Vlan" v]]⟩]
            ++ (if firstNonEmpty [hget (dbA ("VLAN_TABLE:" ++ v)) "admin_status",
                    hget (dbC ("VLAN|" ++ v)) "admin_status"] ≠ ""
                then [⟨"sonic_vlan_admin_status",
                        statusToGauge (firstNonEmpty [hget (dbA ("VLAN_TABLE:" ++ v)) "admin_status",
                          hget (dbC ("VLAN|" ++ v)) "admin_status"]), [v]⟩]
                else [])
            ++ (if hget (dbA ("VLAN_TABLE:" ++ v)) "oper_status" ≠ ""
                then [⟨"sonic_vlan_oper_status",
                        statusToGauge (hget (dbA ("VLAN_TABLE:" ++ v)) "oper_status"), [v]⟩]
                else [])
            ++ [⟨"sonic_vlan_members", 0, [v]⟩]) := by
  rw [processVlan_spec cfg dbC dbA mo st v hv hm]
  refine ⟨[⟨"sonic_vlan_info", 1,
        [v, firstNonEmpty [hget (dbC ("VLAN|" ++ v)) "vlanid", trimPrefix "Vlan" v]]⟩]
      ++ (if firstNonEmpty [hget (dbA ("VLAN_TABLE:" ++ v)) "admin_status",
              hget (dbC ("VLAN|" ++ v)) "admin_status"] ≠ ""
          then [⟨"sonic_vlan_admin_status",
                  statusToGauge (firstNonEmpty [hget (dbA ("VLAN_TABLE:" ++ v)) "admin_status",
                    hget (dbC ("VLAN|" ++ v)) "admin_status"]), [v]⟩]
          else [])
      ++ (if hget (dbA ("VLAN_TABLE:" ++ v)) "oper_status" ≠ ""
          then [⟨"sonic_vlan_oper_status",
                  statusToGauge (hget (dbA ("VLAN_TABLE:" ++ v)) "oper_status"), [v]⟩]
          else [])
      ++ ((sortMembers (mo v)).take
            (min (cfg.maxMembers - st.processedMembers) (sortMembers (mo v)).length)).map
          (fun m => (⟨"sonic_vlan_member_info", 1, [v, m.name, m.taggingMode]⟩ : Metric))
      ++ [⟨"sonic_vlan_members",
            min (cfg.maxMembers - st.processedMembers) (sortMembers (mo v)).length, [v]⟩],
    by simp [List.append_assoc], ?_, ?_⟩
  · rw [List.getLast?_concat]
    have hcount :
        ([⟨"sonic_vlan_info", 1,
            [v, firstNonEmpty [hget (dbC ("VLAN|" ++ v)) "vlanid", trimPrefix "Vlan" v]]⟩]
          ++ (if firstNonEmpty [hget (dbA ("VLAN_TABLE:" ++ v)) "admin_status",
                  hget (dbC ("VLAN|" ++ v)) "admin_status"] ≠ ""
              then [⟨"sonic_vlan_admin_status",
                      statusToGauge (firstNonEmpty [hget (dbA ("VLAN_TABLE:" ++ v)) "admin_status",
                        hget (dbC ("VLAN|" ++ v)) "admin_status"]), [v]⟩]
              else [])
          ++ (if hget (dbA ("VLAN_TABLE:" ++ v)) "oper_status" ≠ ""
              then [⟨"sonic_vlan_oper_status",
                      statusToGauge (hget (dbA ("VLAN_TABLE:" ++ v)) "oper_status"), [v]⟩]
              else [])
          ++ ((sortMembers (mo v)).take
                (min (cfg.maxMembers - st.processedMembers) (sortMembers (mo v)).length)).map
              (fun m => (⟨"sonic_vlan_member_info", 1, [v, m.name, m.taggingMode]⟩ : Metric))
          ++ [⟨"sonic_vlan_members",
                min (cfg.maxMembers - st.processedMembers) (sortMembers (mo v)).length, [v]⟩]
          : List Metric).countP (fun m => decide (m.name = "sonic_vlan_member_info"))
          = min (cfg.maxMembers - st.processedMembers) (sortMembers (mo v)).length := by
      simp only [List.countP_append]
      have c1 : ([⟨"sonic_vlan_info", 1,
          [v, firstNonEmpty [hget (dbC ("VLAN|" ++ v)) "vlanid", trimPrefix "Vlan" v]]⟩]
          : List Metric).countP (fun m => decide (m.name = "sonic_vlan_member_info")) = 0 := by
        simp [List.countP_cons]
      have c2 : ((if firstNonEmpty [hget (dbA ("VLAN_TABLE:" ++ v)) "admin_status",
              hget (dbC ("VLAN|" ++ v)) "admin_status"] ≠ ""
            then [⟨"sonic_vlan_admin_status",
                    statusToGauge (firstNonEmpty [hget (dbA ("VLAN_TABLE:" ++ v)) "admin_status",
                      hget (dbC ("VLAN|" ++ v)) "admin_status"]), [v]⟩]
            else []) : List Metric).countP
            (fun m => decide (m.name = "sonic_vlan_member_info")) = 0 := by
        split <;> simp [List.countP_cons]
      have c3 : ((if hget (dbA ("VLAN_TABLE:" ++ v)) "oper_status" ≠ ""
            then [⟨"sonic_vlan_oper_status",
                    statusToGauge (hget (dbA ("VLAN_TABLE:" ++ v)) "oper_status"), [v]⟩]
            else []) : List Metric).countP
            (fun m => decide (m.name = "sonic_vlan_member_info")) = 0 := by
        split <;> simp [List.countP_cons]
      have c4 : (((sortMembers (mo v)).take
            (min (cfg.maxMembers - st.processedMembers) (sortMembers (mo v)).length)).map
            (fun m => (⟨"sonic_vlan_member_info", 1, [v, m.name, m.taggingMode]⟩ : Metric))).countP
            (fun m => decide (m.name = "sonic_vlan_member_info"))
          = min (cfg.maxMembers - st.processedMembers) (sortMembers (mo v)).length := by
        rw [List.countP_eq_length.mpr]
        · rw [List.length_map, List.length_take]
          omega
        · intro m hmem
          rcases List.mem_map.mp hmem with ⟨x, _, hx⟩
          rw [← hx]
          simp
      have c5 : ([⟨"sonic_vlan_members",
            min (cfg.maxMembers - st.processedMembers) (sortMembers (mo v)).length, [v]⟩]
          : List Metric).countP (fun m => decide (m.name = "sonic_vlan_member_info")) = 0 := by
        simp [List.countP_cons]
      omega
    rw [hcount]
  · intro hempty
    have hsortNil : sortMembers (mo v) = [] := by
      rw [hempty]
      rfl
    rw [hsortNil]
    simp

/-! ## C7: FDB raw-entry truncation and per-series caps -/

theorem fdbEntryStep_truncated (jsonParse : String → Option FdbEntryKey) (db : String → Hash)
    (bvidToVlan bridgePortToPort : List (String × String)) (st : FdbScrapeState) (k : String) :
    (fdbEntryStep jsonParse db bvidToVlan bridgePortToPort st k).truncated = st.truncated := by
  simp only [fdbEntryStep]
  split
  · rfl
  · split
    · rfl
    · rfl

theorem fdbEntriesLoop_no_trunc (jsonParse : String → Option FdbEntryKey) (db : String → Hash)
    (bvidToVlan bridgePortToPort : List (String × String)) (maxEntries : Nat) :
    ∀ (ks : List String) (idx : Nat) (st : FdbScrapeState),
      idx + ks.length ≤ maxEntries →
      (fdbEntriesLoop jsonParse db bvidToVlan bridgePortToPort maxEntries ks idx st).truncated
        = st.truncated := by
  intro ks
  induction ks with
  | nil => intro idx st _; rfl
  | cons k rest ih =>
      intro idx st h
      have hlt : ¬ idx ≥ maxEntries := by
        simp only [List.length_cons] at h
        omega
      simp only [fdbEntriesLoop, if_neg hlt]
      rw [ih (idx + 1) _ (by simp only [List.length_cons] at h; omega)]
      exact fdbEntryStep_truncated jsonParse db bvidToVlan bridgePortToPort st k

theorem fdbEntriesLoop_truncate (jsonParse : String → Option FdbEntryKey) (db : String → Hash)
    (bvidToVlan bridgePortToPort : List (String × String)) (maxEntries : Nat) :
    ∀ (ks : List String) (idx : Nat) (st : FdbScrapeState),
      idx ≤ maxEntries → idx + ks.length > maxEntries →
      fdbEntriesLoop jsonParse db bvidToVlan bridgePortToPort maxEntries ks idx st =
        { fdbEntriesLoop jsonParse db bvidToVlan bridgePortToPort maxEntries
            (ks.take (maxEntries - idx)) idx st with
            truncated := 1,
            skipped := (fdbEntriesLoop jsonParse db bvidToVlan bridgePortToPort maxEntries
              (ks.take (maxEntries - idx)) idx st).skipped + (idx + ks.length - maxEntries) } := by
  intro ks
  induction ks with
  | nil =>
      intro idx st h1 h2
      simp only [List.length_nil] at h2
      omega
  | cons k rest ih =>
      intro idx st h1 h2
      by_cases hge : idx ≥ maxEntries
      · have hidx : idx = maxEntries := by omega
        have htake : maxEntries - idx = 0 := by omega
        rw [htake]
        simp only [List.take_zero, fdbEntriesLoop, if_pos hge]
        have hlen : idx + (k :: rest).length - maxEntries = (k :: rest).length := by
          simp only [List.length_cons]
          omega
        rw [hlen]
      · have htake : maxEntries - idx = (maxEntries - (idx + 1)) + 1 := by omega
        rw [htake]
        simp only [List.take_succ_cons, fdbEntriesLoop, if_neg hge]
        rw [ih (idx + 1) (fdbEntryStep jsonParse db bvidToVlan bridgePortToPort st k)
          (by omega) (by simp only [List.length_cons] at h2 ⊢; omega)]
        have harith : (idx + 1) + rest.length - maxEntries
            = idx + (k :: rest).length - maxEntries := by
          simp only [List.length_cons]
          omega
        rw [harith]

theorem emitSeriesLoop_spec (metricName : String) (counts : List (String × Nat)) (cap : Nat) :
    ∀ (ks : List String) (idx : Nat) (ms : List Metric) (sk : Nat),
      ∃ new,
        (emitSeriesLoop metricName counts cap ks idx (ms, sk)).1 = ms ++ new ∧
        new.length ≤ cap - idx ∧
        ∀ m ∈ new, Metric.name m = metricName := by
  intro ks
  induction ks with
  | nil =>
      intro idx ms sk
      exact ⟨[], by simp [emitSeriesLoop], by simp, by simp⟩
  | cons k rest ih =>
      intro idx ms sk
      by_cases hge : idx ≥ cap
      · refine ⟨[], ?_, by simp, by simp⟩
        simp [emitSeriesLoop, if_pos hge]
      · obtain ⟨new, h1, h2, h3⟩ := ih (idx + 1)
          (ms ++ [⟨metricName, nlookup counts k, [k]⟩]) sk
        refine ⟨⟨metricName, nlookup counts k, [k]⟩ :: new, ?_, ?_, ?_⟩
        · simp only [emitSeriesLoop, if_neg hge]
          rw [h1]
          simp
        · simp only [List.length_cons]
          omega
        · intro m hm
          rcases List.mem_cons.mp hm with h | h
          · rw [h]
          · exact h3 m h

theorem fdbEmitPhase_countP (cfg : FdbConfig) (S : FdbScrapeState) :
    ((fdbEmitPhase cfg S).1.countP
        (fun m => decide (m.name = "sonic_fdb_entries_by_vlan")) ≤ cfg.maxVlans) ∧
    ((fdbEmitPhase cfg S).1.countP
        (fun m => decide (m.name = "sonic_fdb_entries_by_port")) ≤ cfg.maxPorts) := by
  obtain ⟨newV, hv1, hv2, hv3⟩ := emitSeriesLoop_spec "sonic_fdb_entries_by_vlan"
    S.byVlan cfg.maxVlans (sortedMapKeys S.byVlan) 0 [] S.skipped
  obtain ⟨newP, hp1, hp2, hp3⟩ := emitSeriesLoop_spec "sonic_fdb_entries_by_port"
    S.byPort cfg.maxPorts (sortedMapKeys S.byPort) 0 []
    (emitSeriesLoop "sonic_fdb_entries_by_vlan" S.byVlan cfg.maxVlans
      (sortedMapKeys S.byVlan) 0 ([], S.skipped)).2
  have hhead0v : ([⟨"sonic_fdb_entries", S.entriesTotal, []⟩,
      ⟨"sonic_fdb_entries_unknown_vlan", S.unknownVlan, []⟩] : List Metric).countP
      (fun m => decide (m.name = "sonic_fdb_entries_by_vlan")) = 0 := by
    simp [List.countP_cons]
  have hhead0p : ([⟨"sonic_fdb_entries", S.entriesTotal, []⟩,
      ⟨"sonic_fdb_entries_unknown_vlan", S.unknownVlan, []⟩] : List Metric).countP
      (fun m => decide (m.name = "sonic_fdb_entries_by_port")) = 0 := by
    simp [List.countP_cons]
  have htype0 : ∀ (nm : String), nm ≠ "sonic_fdb_entries_by_type" →
      ((sortedMapKeys S.byType).map
        (fun t => (⟨"sonic_fdb_entries_by_type", nlookup S.byType t, [t]⟩ : Metric))).countP
        (fun m => decide (m.name = nm)) = 0 := by
    intro nm hnm
    rw [List.countP_eq_zero]
    intro m hm
    rcases List.mem_map.mp hm with ⟨t, _, ht⟩
    rw [← ht]
    simp only [decide_eq_true_eq]
    intro hcontra
    exact hnm hcontra.symm
  have hoff : ∀ (l : List Metric) (nm nm2 : String), (∀ m ∈ l, Metric.name m = nm) →
      nm ≠ nm2 → l.countP (fun m => decide (m.name = nm2)) = 0 := by
    intro l nm nm2 hl hne
    rw [List.countP_eq_zero]
    intro m hm
    simp only [decide_eq_true_eq]
    rw [hl m hm]
    exact hne
  have hcountle : ∀ (l : List Metric) (nm : String),
      l.countP (fun m => decide (m.name = nm)) ≤ l.length := by
    intro l nm
    exact List.countP_le_length _
  constructor
  · simp only [fdbEmitPhase, List.countP_append, hhead0v, hv1, hp1]
    have hz := hoff newP "sonic_fdb_entries_by_port" "sonic_fdb_entries_by_vlan" hp3 (by decide)
    have hz2 := htype0 "sonic_fdb_entries_by_vlan" (by decide)
    have hle := hcountle newV "sonic_fdb_entries_by_vlan"
    simp only [List.nil_append, List.countP_nil, List.countP_append] at *
    omega
  · simp only [fdbEmitPhase, List.countP_append, hhead0p, hv1, hp1]
    have hz := hoff newV "sonic_fdb_entries_by_vlan" "sonic_fdb_entries_by_port" hv3 (by decide)
    have hz2 := htype0 "sonic_fdb_entries_by_port" (by decide)
    have hle := hcountle newP "sonic_fdb_entries_by_port"
    simp only [List.nil_append, List.countP_nil, List.countP_append] at *
    omega

/-- C7: if the sorted forwarding-entry scan is longer than maxEntries, the
loop stops at maxEntries having processed exactly the first maxEntries
keys, raises the truncated flag to 1 (exactly once, as a flag) and adds
every remaining unprocessed entry to the skip counter; if not, the flag
stays 0.  At the snapshot level the truncated gauge is 1 exactly when the
input exceeds maxEntries, and no snapshot carries more per-VLAN or
per-port series than the configured caps. -/
theorem fdb_truncation_and_series_caps :
    (∀ (jsonParse : String → Option FdbEntryKey) (db : String → Hash)
        (bvidToVlan bridgePortToPort : List (String × String)) (maxEntries : Nat)
        (ks : List String) (st : FdbScrapeState),
      (ks.length > maxEntries →
        fdbEntriesLoop jsonParse db bvidToVlan bridgePortToPort maxEntries ks 0 st =
          { fdbEntriesLoop jsonParse db bvidToVlan bridgePortToPort maxEntries
              (ks.take maxEntries) 0 st with
              truncated := 1,
              skipped := (fdbEntriesLoop jsonParse db bvidToVlan bridgePortToPort maxEntries
                (ks.take maxEntries) 0 st).skipped + (ks.length - maxEntries) }) ∧
      (ks.length ≤ maxEntries →
        (fdbEntriesLoop jsonParse db bvidToVlan bridgePortToPort maxEntries ks 0 st).truncated
          = st.truncated)) ∧
    ∀ (cfg : FdbConfig) (jsonParse : String → Option FdbEntryKey) (db : String → Hash)
      (portNameMap lagNameMap : Hash) (vlanObjKeys bridgePortKeys fdbKeys : List String),
      ((fdbKeys.length > cfg.maxEntries →
          (fdbScrape cfg jsonParse db portNameMap lagNameMap vlanObjKeys bridgePortKeys fdbKeys).truncated = 1) ∧
        (fdbKeys.length ≤ cfg.maxEntries →
          (fdbScrape cfg jsonParse db portNameMap lagNameMap vlanObjKeys bridgePortKeys fdbKeys).truncated = 0)) ∧
      (fdbScrape cfg jsonParse db portNameMap lagNameMap vlanObjKeys bridgePortKeys fdbKeys).metrics.countP
          (fun m => decide (m.name = "sonic_fdb_entries_by_vlan")) ≤ cfg.maxVlans ∧
      (fdbScrape cfg jsonParse db portNameMap lagNameMap vlanObjKeys bridgePortKeys fdbKeys).metrics.countP
          (fun m => decide (m.name = "sonic_fdb_entries_by_port")) ≤ cfg.maxPorts := by
  have hloop := fdbEntriesLoop_truncate
  have hnotrunc := fdbEntriesLoop_no_trunc
  constructor
  · intro jsonParse db bvidToVlan bridgePortToPort maxEntries ks st
    constructor
    · intro hgt
      have := hloop jsonParse db bvidToVlan bridgePortToPort maxEntries ks 0 st
        (by omega) (by omega)
      simpa using this
    · intro hle
      exact hnotrunc jsonParse db bvidToVlan bridgePortToPort maxEntries ks 0 st (by omega)
  · intro cfg jsonParse db portNameMap lagNameMap vlanObjKeys bridgePortKeys fdbKeys
    have hlen : (sortStrings fdbKeys).length = fdbKeys.length := sortStrings_length fdbKeys
    have htr : (fdbScrape cfg jsonParse db portNameMap lagNameMap vlanObjKeys bridgePortKeys fdbKeys).truncated
        = (fdbEntriesLoop jsonParse db (bvidToVlanMap db vlanObjKeys).1
            (bridgePortToPortMap db (portOidToNameMap portNameMap lagNameMap) bridgePortKeys).1
            cfg.maxEntries (sortStrings fdbKeys) 0
            ⟨(bvidToVlanMap db vlanObjKeys).2
              + (bridgePortToPortMap db (portOidToNameMap portNameMap lagNameMap) bridgePortKeys).2,
              0, 0, 0, [], [], []⟩).truncated := rfl
    refine ⟨⟨?_, ?_⟩, ?_, ?_⟩
    · intro hgt
      rw [htr]
      rw [hloop jsonParse db _ _ cfg.maxEntries (sortStrings fdbKeys) 0 _ (by omega) (by omega)]
    · intro hle
      rw [htr]
      exact hnotrunc jsonParse db _ _ cfg.maxEntries (sortStrings fdbKeys) 0 _ (by omega)
    · have hmet : (fdbScrape cfg jsonParse db portNameMap lagNameMap vlanObjKeys bridgePortKeys fdbKeys).metrics
          = (fdbEmitPhase cfg
            (fdbEntriesLoop jsonParse db (bvidToVlanMap db vlanObjKeys).1
              (bridgePortToPortMap db (portOidToNameMap portNameMap lagNameMap) bridgePortKeys).1
              cfg.maxEntries (sortStrings fdbKeys) 0
              ⟨(bvidToVlanMap db vlanObjKeys).2
                + (bridgePortToPortMap db (portOidToNameMap portNameMap lagNameMap) bridgePortKeys).2,
                0, 0, 0, [], [], []⟩)).1 := rfl
      rw [hmet]
      exact (fdbEmitPhase_countP cfg _).1
    · have hmet : (fdbScrape cfg jsonParse db portNameMap lagNameMap vlanObjKeys bridgePortKeys fdbKeys).metrics
          = (fdbEmitPhase cfg
            (fdbEntriesLoop jsonParse db (bvidToVlanMap db vlanObjKeys).1
              (bridgePortToPortMap db (portOidToNameMap portNameMap lagNameMap) bridgePortKeys).1
              cfg.maxEntries (sortStrings fdbKeys) 0
              ⟨(bvidToVlanMap db vlanObjKeys).2
                + (bridgePortToPortMap db (portOidToNameMap portNameMap lagNameMap) bridgePortKeys).2,
                0, 0, 0, [], [], []⟩)).1 := rfl
      rw [hmet]
      exact (fdbEmitPhase_countP cfg _).2

/-- C6 witness: a parent with no children (and no status fields) emits
exactly its identity record and a member-count record of zero. -/
theorem member_count_zero_children_witness :
    (processVlan ⟨4, 4⟩ (fun _ => []) (fun _ => []) (fun _ => [])
        ⟨[], 0, 0, 0⟩ "Vlan9").metrics
      = [⟨"sonic_vlan_info", 1, ["Vlan9", "9"]⟩, ⟨"sonic_vlan_members", 0, ["Vlan9"]⟩] := by
  obtain ⟨ap, h1, h2, h3⟩ := member_count_reflects_emitted ⟨4, 4⟩ (fun _ => []) (fun _ => [])
    (fun _ => []) ⟨[], 0, 0, 0⟩ "Vlan9" (by decide) (by decide)
  rw [h3 rfl]
  decide

/-- C7 witness: the snapshot-level truncation behavior at a concrete
three-key scan against a two-entry cap (flag 1) and a large cap (flag 0),
plus the truncation equation at the loop level. -/
theorem fdb_truncation_witness :
    (fdbScrape ⟨2, 16, 16⟩ (fun _ => none) (fun _ => []) [] []
        [] [] ["ASIC_STATE:SAI_OBJECT_TYPE_FDB_ENTRY:a",
              "ASIC_STATE:SAI_OBJECT_TYPE_FDB_ENTRY:b",
              "ASIC_STATE:SAI_OBJECT_TYPE_FDB_ENTRY:c"]).truncated = 1 ∧
    (fdbScrape ⟨50, 16, 16⟩ (fun _ => none) (fun _ => []) [] []
        [] [] ["ASIC_STATE:SAI_OBJECT_TYPE_FDB_ENTRY:a",
              "ASIC_STATE:SAI_OBJECT_TYPE_FDB_ENTRY:b",
              "ASIC_STATE:SAI_OBJECT_TYPE_FDB_ENTRY:c"]).truncated = 0 := by
  constructor
  · exact ((fdb_truncation_and_series_caps.2 ⟨2, 16, 16⟩ (fun _ => none) (fun _ => []) [] []
      [] [] ["ASIC_STATE:SAI_OBJECT_TYPE_FDB_ENTRY:a",
             "ASIC_STATE:SAI_OBJECT_TYPE_FDB_ENTRY:b",
             "ASIC_STATE:SAI_OBJECT_TYPE_FDB_ENTRY:c"]).1.1) (by decide)
  · exact ((fdb_truncation_and_series_caps.2 ⟨50, 16, 16⟩ (fun _ => none) (fun _ => []) [] []
      [] [] ["ASIC_STATE:SAI_OBJECT_TYPE_FDB_ENTRY:a",
             "ASIC_STATE:SAI_OBJECT_TYPE_FDB_ENTRY:b",
             "ASIC_STATE:SAI_OBJECT_TYPE_FDB_ENTRY:c"]).1.2) (by decide)

/-! ## C4: FDB VLAN label resolution and unknown-VLAN accounting -/

/-- C4: the displayed VLAN label prefers the non-empty trimmed VLAN value
embedded in the entry key, then the bridge-object (bvid) lookup; when both
fail the label is "unknown" and the unknown flag is set, and a processed
entry in that state increments the dedicated unknown-VLAN counter by
exactly 1, leaves the generic skip counter unchanged, is counted in the
entry total and is aggregated under the "unknown" VLAN series. -/
theorem fdb_unknown_vlan_resolution :
    (∀ (e : FdbEntryKey) (m : List (String × String)),
      (goTrim e.vlan ≠ "" → resolveFDBVLANLabel e m = (goTrim e.vlan, false)) ∧
      (goTrim e.vlan = "" → slookup m (goTrim e.bvid) ≠ "" →
        resolveFDBVLANLabel e m = (slookup m (goTrim e.bvid), false)) ∧
      (goTrim e.vlan = "" → slookup m (goTrim e.bvid) = "" →
        resolveFDBVLANLabel e m = ("unknown", true))) ∧
    ∀ (jsonParse : String → Option FdbEntryKey) (db : String → Hash)
      (bvidToVlan bridgePortToPort : List (String × String)) (st : FdbScrapeState)
      (fdbKey : String) (e : FdbEntryKey),
      parseFDBKey jsonParse fdbKey = some e →
      hashIsEmpty (db fdbKey) = false →
      goTrim e.vlan = "" → slookup bvidToVlan (goTrim e.bvid) = "" →
      (fdbEntryStep jsonParse db bvidToVlan bridgePortToPort st fdbKey).skipped = st.skipped ∧
      (fdbEntryStep jsonParse db bvidToVlan bridgePortToPort st fdbKey).unknownVlan
        = st.unknownVlan + 1 ∧
      (fdbEntryStep jsonParse db bvidToVlan bridgePortToPort st fdbKey).entriesTotal
        = st.entriesTotal + 1 ∧
      (fdbEntryStep jsonParse db bvidToVlan bridgePortToPort st fdbKey).byVlan
        = bump st.byVlan "unknown" := by
  have hres : ∀ (e : FdbEntryKey) (m : List (String × String)),
      (goTrim e.vlan ≠ "" → resolveFDBVLANLabel e m = (goTrim e.vlan, false)) ∧
      (goTrim e.vlan = "" → slookup m (goTrim e.bvid) ≠ "" →
        resolveFDBVLANLabel e m = (slookup m (goTrim e.bvid), false)) ∧
      (goTrim e.vlan = "" → slookup m (goTrim e.bvid) = "" →
        resolveFDBVLANLabel e m = ("unknown", true)) := by
    intro e m
    refine ⟨?_, ?_, ?_⟩
    · intro h
      simp only [resolveFDBVLANLabel, if_pos h]
    · intro h1 h2
      simp only [resolveFDBVLANLabel, h1, if_pos h2]
      simp
    · intro h1 h2
      simp only [resolveFDBVLANLabel, h1, h2]
      simp
  refine ⟨hres, ?_⟩
  intro jsonParse db bvidToVlan bridgePortToPort st fdbKey e hp hne hv hb
  have hunk : resolveFDBVLANLabel e bvidToVlan = ("unknown", true) :=
    (hres e bvidToVlan).2.2 hv hb
  simp only [fdbEntryStep, hp, hne, Bool.false_eq_true, if_false, hunk]
  refine ⟨by trivial, by simp, by trivial, by trivial⟩

/-- C4 witness: the resolution cases and the per-entry step effect at a
concrete unresolvable entry. -/
theorem fdb_unknown_vlan_witness :
    resolveFDBVLANLabel ⟨"oid:b", "", "aa:bb"⟩ [("oid:a", "10")] = ("unknown", true) ∧
    (fdbEntryStep (fun s => if s = "K" then some ⟨"oid:b", "", "aa:bb"⟩ else none)
        (fun k => if k = "ASIC_STATE:SAI_OBJECT_TYPE_FDB_ENTRY:K"
                  then [("SAI_FDB_ENTRY_ATTR_TYPE", "SAI_FDB_ENTRY_TYPE_DYNAMIC")] else [])
        [("oid:a", "10")] [] ⟨5, 0, 7, 2, [], [], []⟩
        "ASIC_STATE:SAI_OBJECT_TYPE_FDB_ENTRY:K").unknownVlan = 3 ∧
    (fdbEntryStep (fun s => if s = "K" then some ⟨"oid:b", "", "aa:bb"⟩ else none)
        (fun k => if k = "ASIC_STATE:SAI_OBJECT_TYPE_FDB_ENTRY:K"
                  then [("SAI_FDB_ENTRY_ATTR_TYPE", "SAI_FDB_ENTRY_TYPE_DYNAMIC")] else [])
        [("oid:a", "10")] [] ⟨5, 0, 7, 2, [], [], []⟩
        "ASIC_STATE:SAI_OBJECT_TYPE_FDB_ENTRY:K").skipped = 5 := by
  refine ⟨?_, ?_, ?_⟩
  · exact (fdb_unknown_vlan_resolution.1 ⟨"oid:b", "", "aa:bb"⟩ [("oid:a", "10")]).2.2
      (by decide) (by decide)
  · have h := (fdb_unknown_vlan_resolution.2 (fun s => if s = "K" then some ⟨"oid:b", "", "aa:bb"⟩ else none)
      (fun k => if k = "ASIC_STATE:SAI_OBJECT_TYPE_FDB_ENTRY:K"
                then [("SAI_FDB_ENTRY_ATTR_TYPE", "SAI_FDB_ENTRY_TYPE_DYNAMIC")] else [])
      [("oid:a", "10")] [] ⟨5, 0, 7, 2, [], [], []⟩
      "ASIC_STATE:SAI_OBJECT_TYPE_FDB_ENTRY:K" ⟨"oid:b", "", "aa:bb"⟩
      (by decide) (by decide) (by decide) (by decide)).2.1
    rw [h]
  · have h := (fdb_unknown_vlan_resolution.2 (fun s => if s = "K" then some ⟨"oid:b", "", "aa:bb"⟩ else none)
      (fun k => if k = "ASIC_STATE:SAI_OBJECT_TYPE_FDB_ENTRY:K"
                then [("SAI_FDB_ENTRY_ATTR_TYPE", "SAI_FDB_ENTRY_TYPE_DYNAMIC")] else [])
      [("oid:a", "10")] [] ⟨5, 0, 7, 2, [], [], []⟩
      "ASIC_STATE:SAI_OBJECT_TYPE_FDB_ENTRY:K" ⟨"oid:b", "", "aa:bb"⟩
      (by decide) (by decide) (by decide) (by decide)).1
    rw [h]

/-! ## C8: scan-order independence of the VLAN pipeline -/

theorem insertName_mem (l : List String) (n x : String) :
    x ∈ insertName l n ↔ x ∈ l ∨ x = n := by
  unfold insertName
  split
  · next hmem =>
      constructor
      · exact fun h => Or.inl h
      · intro h
        rcases h with h | h
        · exact h
        · rw [h]; exact hmem
  · simp

theorem insertName_nodup (l : List String) (n : String) (h : l.Nodup) :
    (insertName l n).Nodup := by
  unfold insertName
  split
  · exact h
  · next hmem =>
      simp [List.nodup_append, h, hmem]

theorem scanNames_snd (pre : String) :
    ∀ (keys : List String) (acc : List String × Nat),
      (scanNames pre acc keys).2 = acc.2 + keys.countP (isBadKey pre) := by
  intro keys
  induction keys with
  | nil => intro acc; simp [scanNames]
  | cons k ks ih =>
      intro acc
      simp only [scanNames, List.foldl_cons] at ih ⊢
      by_cases hb : trimPrefix pre k = "" ∨ trimPrefix pre k = k
      · rw [if_pos hb]
        rw [ih]
        have hbt : isBadKey pre k = true := by
          unfold isBadKey
          exact decide_eq_true hb
        simp [List.countP_cons, hbt]
        omega
      · rw [if_neg hb]
        rw [ih]
        have hbf : isBadKey pre k = false := by
          unfold isBadKey
          exact decide_eq_false hb
        simp [List.countP_cons, hbf]

theorem scanNames_fst_mem (pre : String) :
    ∀ (keys : List String) (acc : List String × Nat) (x : String),
      x ∈ (scanNames pre acc keys).1 ↔
        x ∈ acc.1 ∨ ∃ k, k ∈ keys ∧ isBadKey pre k = false ∧ trimPrefix pre k = x := by
  intro keys
  induction keys with
  | nil =>
      intro acc x
      simp [scanNames]
  | cons k ks ih =>
      intro acc x
      simp only [scanNames, List.foldl_cons] at ih ⊢
      by_cases hb : trimPrefix pre k = "" ∨ trimPrefix pre k = k
      · rw [if_pos hb, ih]
        have hbad : isBadKey pre k = true := decide_eq_true hb
        constructor
        · intro h
          rcases h with h | ⟨k', hk1, hk2, hk3⟩
          · exact Or.inl h
          · exact Or.inr ⟨k', List.mem_cons_of_mem k hk1, hk2, hk3⟩
        · intro h
          rcases h with h | ⟨k', hk1, hk2, hk3⟩
          · exact Or.inl h
          · rcases List.mem_cons.mp hk1 with he | he
            · rw [he] at hk2
              rw [hbad] at hk2
              cases hk2
            · exact Or.inr ⟨k', he, hk2, hk3⟩
      · rw [if_neg hb, ih]
        have hbad : isBadKey pre k = false := decide_eq_false hb
        simp only [insertName_mem]
        constructor
        · intro h
          rcases h with (h | h) | ⟨k', hk1, hk2, hk3⟩
          · exact Or.inl h
          · exact Or.inr ⟨k, List.mem_cons_self k ks, hbad, h.symm⟩
          · exact Or.inr ⟨k', List.mem_cons_of_mem k hk1, hk2, hk3⟩
        · intro h
          rcases h with h | ⟨k', hk1, hk2, hk3⟩
          · exact Or.inl (Or.inl h)
          · rcases List.mem_cons.mp hk1 with he | he
            · rw [he] at hk3
              exact Or.inl (Or.inr hk3.symm)
            · exact Or.inr ⟨k', he, hk2, hk3⟩

theorem scanNames_fst_nodup (pre : String) :
    ∀ (keys : List String) (acc : List String × Nat),
      acc.1.Nodup → (scanNames pre acc keys).1.Nodup := by
  intro keys
  induction keys with
  | nil => intro acc h; simpa [scanNames] using h
  | cons k ks ih =>
      intro acc h
      simp only [scanNames, List.foldl_cons] at ih ⊢
      by_cases hb : trimPrefix pre k = "" ∨ trimPrefix pre k = k
      · rw [if_pos hb]
        exact ih _ h
      · rw [if_neg hb]
        exact ih _ (insertName_nodup acc.1 (trimPrefix pre k) h)

theorem scanMembers_eq (db : String → Hash) :
    ∀ (keys : List String) (acc : List (String × VlanMemberEntry) × Nat),
      scanMembers db acc keys =
        (acc.1 ++ keys.filterMap (memberEntryOf db),
         acc.2 + keys.countP (isBadMemberKey db)) := by
  intro keys
  induction keys with
  | nil => intro acc; simp [scanMembers]
  | cons k ks ih =>
      intro acc
      simp only [scanMembers, List.foldl_cons] at ih ⊢
      cases he : memberEntryOf db k with
      | none =>
          have hbad : isBadMemberKey db k = true := by
            unfold isBadMemberKey
            exact decide_eq_true he
          rw [ih]
          simp only [List.filterMap_cons, he, List.countP_cons, hbad, Prod.mk.injEq]
          refine ⟨by trivial, ?_⟩
          simp
          omega
      | some entry =>
          have hbad : isBadMemberKey db k = false := by
            unfold isBadMemberKey
            simp [he]
          rw [ih]
          simp only [List.filterMap_cons, he, List.countP_cons, hbad, Prod.mk.injEq]
          refine ⟨by simp, by simp⟩

theorem splitFirst_eq (sep : Char) :
    ∀ (l a b : List Char), splitFirst sep l = some (a, b) → l = a ++ sep :: b := by
  intro l
  induction l with
  | nil => intro a b h; simp [splitFirst] at h
  | cons c cs ih =>
      intro a b h
      simp only [splitFirst] at h
      by_cases hc : c = sep
      · rw [if_pos hc] at h
        injection h with h
        injection h with h1 h2
        rw [← h1, ← h2, hc]
        rfl
      · rw [if_neg hc] at h
        cases hs : splitFirst sep cs with
        | none => rw [hs] at h; cases h
        | some p =>
            rw [hs] at h
            cases p with
            | mk a' b' =>
                injection h with h
                injection h with h1 h2
                rw [← h1, ← h2]
                rw [List.cons_append]
                rw [ih a' b' hs]

theorem trimPrefix_data_of_ne (pre s : String) (h : trimPrefix pre s ≠ s) :
    s.data = pre.data ++ (trimPrefix pre s).data := by
  unfold trimPrefix at *
  by_cases hp : pre.data.isPrefixOf s.data
  · rw [if_pos hp] at *
    obtain ⟨t, ht⟩ := List.isPrefixOf_iff_prefix.mp hp
    have hdrop : s.data.drop pre.data.length = t := by
      rw [← ht]
      exact List.drop_left pre.data t
    show s.data = pre.data ++ (String.mk (s.data.drop pre.data.length)).data
    rw [hdrop, ← ht]
  · rw [if_neg hp] at h
    exact absurd rfl h

theorem memberEntryOf_data (db : String → Hash) (k v : String) (e : VlanMemberEntry)
    (h : memberEntryOf db k = some (v, e)) :
    k.data = ("VLAN_MEMBER|" : String).data ++ v.data ++ '|' :: e.name.data := by
  unfold memberEntryOf at h
  by_cases hcond : trimPrefix "VLAN_MEMBER|" k = "" ∨ trimPrefix "VLAN_MEMBER|" k = k
  · rw [if_pos hcond] at h
    cases h
  · rw [if_neg hcond] at h
    cases hs : splitN2 (trimPrefix "VLAN_MEMBER|" k) '|' with
    | none => rw [hs] at h; cases h
    | some p =>
        rw [hs] at h
        cases p with
        | mk vn mn =>
            dsimp only at h
            by_cases hne : vn = "" ∨ mn = ""
            · rw [if_pos hne] at h
              cases h
            · rw [if_neg hne] at h
              injection h with h
              injection h with h1 h2
              unfold splitN2 at hs
              cases hsf : splitFirst '|' (trimPrefix "VLAN_MEMBER|" k).data with
              | none => rw [hsf] at hs; cases hs
              | some q =>
                  rw [hsf] at hs
                  cases q with
                  | mk a b =>
                      injection hs with hs
                      injection hs with hs1 hs2
                      have hva : v.data = a := by
                        rw [← h1, ← hs1]
                      have hnb : e.name.data = b := by
                        rw [← h2, ← hs2]
                      have hsplit := splitFirst_eq '|' (trimPrefix "VLAN_MEMBER|" k).data a b hsf
                      have hk := trimPrefix_data_of_ne "VLAN_MEMBER|" k (by
                        intro hcontra
                        exact hcond (Or.inr hcontra))
                      rw [hk, hsplit, hva, hnb]
                      rw [List.append_assoc]

theorem memberEntryOf_inj (db : String → Hash) (k₁ k₂ v : String)
    (e₁ e₂ : VlanMemberEntry) (h₁ : memberEntryOf db k₁ = some (v, e₁))
    (h₂ : memberEntryOf db k₂ = some (v, e₂)) (hn : e₁.name = e₂.name) : k₁ = k₂ := by
  apply String.ext
  rw [memberEntryOf_data db k₁ v e₁ h₁, memberEntryOf_data db k₂ v e₂ h₂, hn]

theorem nodup_map_filterMap {α β γ : Type} (f : α → Option β) (g : β → γ)
    (inj : ∀ a₁ a₂ b₁ b₂, f a₁ = some b₁ → f a₂ = some b₂ → g b₁ = g b₂ → a₁ = a₂) :
    ∀ (l : List α), l.Nodup → ((l.filterMap f).map g).Nodup := by
  intro l
  induction l with
  | nil => intro _; simp
  | cons a rest ih =>
      intro hnd
      rw [List.filterMap_cons]
      cases hf : f a with
      | none => exact ih (List.nodup_cons.mp hnd).2
      | some b =>
          simp only [List.map_cons, List.nodup_cons]
          refine ⟨?_, ih (List.nodup_cons.mp hnd).2⟩
          intro hmem
          rcases List.mem_map.mp hmem with ⟨b', hb'_mem, hgb⟩
          rcases List.mem_filterMap.mp hb'_mem with ⟨a', ha'_mem, hfa'⟩
          have : a = a' := inj a a' b b' hf hfa' hgb.symm
          rw [this] at hnd
          exact (List.nodup_cons.mp hnd).1 ha'_mem

theorem nodup_snd_name_of_pairs (v : String) :
    ∀ (l : List (String × VlanMemberEntry)), (∀ p ∈ l, p.1 = v) →
      (l.map (fun p => (p.1, p.2.name))).Nodup →
      (l.map (fun p => p.2.name)).Nodup := by
  intro l
  induction l with
  | nil => intro _ _; simp
  | cons p rest ih =>
      intro hall hnd
      simp only [List.map_cons, List.nodup_cons] at hnd ⊢
      refine ⟨?_, ih (fun q hq => hall q (List.mem_cons_of_mem p hq)) hnd.2⟩
      intro hmem
      rcases List.mem_map.mp hmem with ⟨q, hq_mem, hqn⟩
      apply hnd.1
      apply List.mem_map.mpr
      refine ⟨q, hq_mem, ?_⟩
      rw [hqn, hall q (List.mem_cons_of_mem p hq_mem), hall p (List.mem_cons_self p rest)]

theorem membersOfList_names_nodup (db : String → Hash) (keys : List String)
    (hnd : keys.Nodup) (v : String) :
    ((membersOfList (keys.filterMap (memberEntryOf db)) v).map VlanMemberEntry.name).Nodup := by
  have hpairs : ((keys.filterMap (memberEntryOf db)).map (fun p => (p.1, p.2.name))).Nodup := by
    apply nodup_map_filterMap (memberEntryOf db) (fun p => (p.1, p.2.name))
    · intro a₁ a₂ b₁ b₂ hf₁ hf₂ hg
      injection hg with h1 h2
      refine memberEntryOf_inj db a₁ a₂ b₂.1 b₁.2 b₂.2 ?_ ?_ h2
      · rw [← h1]
        exact hf₁
      · exact hf₂
    · exact hnd
  have hfilter : (((keys.filterMap (memberEntryOf db)).filter
      (fun p => p.1 = v)).map (fun p => (p.1, p.2.name))).Nodup := by
    exact List.Sublist.nodup (List.Sublist.map _ (List.filter_sublist _)) hpairs
  have hall : ∀ p ∈ (keys.filterMap (memberEntryOf db)).filter (fun p => p.1 = v), p.1 = v := by
    intro p hp
    have := (List.mem_filter.mp hp).2
    exact of_decide_eq_true this
  have hnames := nodup_snd_name_of_pairs v _ hall hfilter
  unfold membersOfList
  rw [List.map_map]
  exact hnames

theorem vlanScrape_normalize (cfg : VlanConfig) (dbC dbA : String → Hash)
    (configKeys applKeys memberKeys : List String) :
    vlanScrape cfg dbC dbA configKeys applKeys memberKeys =
      (sortStrings (scanNames "VLAN_TABLE:" (scanNames "VLAN|" ([], 0) configKeys) applKeys).1).foldl
        (processVlan cfg dbC dbA (membersOfList (memberKeys.filterMap (memberEntryOf dbC))))
        ⟨[], (scanNames "VLAN_TABLE:" (scanNames "VLAN|" ([], 0) configKeys) applKeys).2
              + memberKeys.countP (isBadMemberKey dbC), 0, 0⟩ := by
  simp only [vlanScrape]
  rw [scanMembers_eq]
  simp only [List.nil_append]

theorem processVlan_congr (cfg : VlanConfig) (dbC dbA : String → Hash)
    (mo₁ mo₂ : String → List VlanMemberEntry) (v : String)
    (h : sortMembers (mo₁ v) = sortMembers (mo₂ v)) (st : VlanScrapeState) :
    processVlan cfg dbC dbA mo₁ st v = processVlan cfg dbC dbA mo₂ st v := by
  by_cases hcap : st.processedVlans ≥ cfg.maxVlans
  · simp only [processVlan, if_pos hcap]
  · simp only [processVlan, if_neg hcap, h]

theorem vlanFold_congr (cfg : VlanConfig) (dbC dbA : String → Hash)
    (mo₁ mo₂ : String → List VlanMemberEntry)
    (h : ∀ v, sortMembers (mo₁ v) = sortMembers (mo₂ v)) :
    ∀ (names : List String) (st : VlanScrapeState),
      names.foldl (processVlan cfg dbC dbA mo₁) st
        = names.foldl (processVlan cfg dbC dbA mo₂) st := by
  intro names
  induction names with
  | nil => intro st; rfl
  | cons n ns ih =>
      intro st
      simp only [List.foldl_cons]
      rw [processVlan_congr cfg dbC dbA mo₁ mo₂ n (h n) st]
      exact ih _

theorem slookup_supdate (m : List (String × String)) (k v x : String) :
    slookup (supdate m k v) x = if k = x then v else slookup m x := by
  induction m with
  | nil => simp [supdate, slookup]
  | cons p rest ih =>
      cases p with
      | mk k' v' =>
          by_cases hk : k' = k
          · subst hk
            by_cases hx : k' = x
            · subst hx
              simp [supdate, slookup]
            · simp [supdate, slookup, hx]
          · by_cases hx' : k' = x
            · subst hx'
              have hkx : ¬ k = k' := fun hc => hk hc.symm
              simp [supdate, slookup, hk, hkx]
            · simp [supdate, slookup, hk, hx', ih]

theorem slookup_foldl_supdate {α : Type} (key val : α → String) :
    ∀ (l : List α) (m : List (String × String)) (x : String),
      ((l.map key).Nodup) →
      slookup (l.foldl (fun m a => supdate m (key a) (val a)) m) x
        = match l.find? (fun a => decide (key a = x)) with
          | some a => val a
          | none => slookup m x := by
  intro l
  induction l with
  | nil =>
      intro m x _
      simp [List.find?]
  | cons a rest ih =>
      intro m x hnd
      simp only [List.map_cons, List.nodup_cons] at hnd
      simp only [List.foldl_cons]
      by_cases hx : key a = x
      · have hfind : (a :: rest).find? (fun a => decide (key a = x)) = some a :=
          List.find?_cons_of_pos rest (decide_eq_true hx)
        rw [hfind]
        have hnone : rest.find? (fun a => decide (key a = x)) = none := by
          rw [List.find?_eq_none]
          intro b hb
          simp only [decide_eq_true_eq]
          intro hcb
          apply hnd.1
          have hab : key a = key b := hx.trans hcb.symm
          rw [hab]
          exact List.mem_map_of_mem key hb
        rw [ih _ x hnd.2, hnone]
        rw [slookup_supdate, if_pos hx]
      · have hfind : (a :: rest).find? (fun a => decide (key a = x))
            = rest.find? (fun a => decide (key a = x)) := by
          apply List.find?_cons_of_neg
          simp [hx]
        rw [hfind]
        rw [ih _ x hnd.2]
        cases rest.find? (fun a => decide (key a = x)) with
        | some b => rfl
        | none =>
            rw [slookup_supdate, if_neg hx]

theorem find?_eq_some_of_unique {α : Type} (p : α → Bool) (e : α) :
    ∀ (l : List α), e ∈ l → p e = true → (∀ b ∈ l, p b = true → b = e) →
      l.find? p = some e := by
  intro l
  induction l with
  | nil => intro h; cases h
  | cons a rest ih =>
      intro hmem hpe huniq
      by_cases hpa : p a = true
      · rw [List.find?_cons_of_pos rest hpa]
        rw [huniq a (List.mem_cons_self a rest) hpa]
      · rw [List.find?_cons_of_neg rest hpa]
        have hea : e ∈ rest := by
          rcases List.mem_cons.mp hmem with h | h
          · rw [h] at hpe
            exact absurd hpe hpa
          · exact h
        exact ih hea hpe (fun b hb hpb => huniq b (List.mem_cons_of_mem a hb) hpb)

theorem find?_congr_perm {α : Type} (p : α → Bool) {l₁ l₂ : List α} (h : l₁.Perm l₂)
    (uniq : ∀ a ∈ l₁, ∀ b ∈ l₁, p a = true → p b = true → a = b) :
    l₁.find? p = l₂.find? p := by
  by_cases hex : ∃ a ∈ l₁, p a = true
  · obtain ⟨e, he, hpe⟩ := hex
    rw [find?_eq_some_of_unique p e l₁ he hpe (fun b hb hpb => uniq b hb e he hpb hpe)]
    rw [find?_eq_some_of_unique p e l₂ (h.mem_iff.mp he) hpe
      (fun b hb hpb => uniq b (h.mem_iff.mpr hb) e he hpb hpe)]
  · rw [List.find?_eq_none.mpr, List.find?_eq_none.mpr]
    · intro x hx
      exact fun hpx => hex ⟨x, h.mem_iff.mpr hx, hpx⟩
    · intro x hx
      exact fun hpx => hex ⟨x, hx, hpx⟩

theorem bvidEntryOf_key_data (db : String → Hash) (vlanKey : String) (p : String × String)
    (h : bvidEntryOf db vlanKey = some p) :
    vlanKey.data = asciiVLANObjectPrefix.data ++ p.1.data := by
  simp only [bvidEntryOf] at h
  by_cases c1 : trimPrefix asciiVLANObjectPrefix vlanKey = "" ∨
      trimPrefix asciiVLANObjectPrefix vlanKey = vlanKey
  · rw [if_pos c1] at h
    cases h
  · rw [if_neg c1] at h
    by_cases c2 : goTrim (hget (db vlanKey) "SAI_VLAN_ATTR_VLAN_ID") = ""
    · rw [if_pos c2] at h
      cases h
    · rw [if_neg c2] at h
      injection h with h1
      rw [← h1]
      exact trimPrefix_data_of_ne asciiVLANObjectPrefix vlanKey (fun hc => c1 (Or.inr hc))

theorem bridgePortEntryOf_key_data (db : String → Hash)
    (portOidToName : List (String × String)) (bridgePortKey : String) (p : String × String)
    (h : bridgePortEntryOf db portOidToName bridgePortKey = some p) :
    bridgePortKey.data = asciiBridgePortPrefix.data ++ p.1.data := by
  simp only [bridgePortEntryOf] at h
  by_cases c1 : trimPrefix asciiBridgePortPrefix bridgePortKey = "" ∨
      trimPrefix asciiBridgePortPrefix bridgePortKey = bridgePortKey
  · rw [if_pos c1] at h
    cases h
  · rw [if_neg c1] at h
    by_cases c2 : hget (db bridgePortKey) "SAI_BRIDGE_PORT_ATTR_PORT_ID" = ""
    · rw [if_pos c2] at h
      cases h
    · rw [if_neg c2] at h
      by_cases c3 : slookup portOidToName
          (hget (db bridgePortKey) "SAI_BRIDGE_PORT_ATTR_PORT_ID") = ""
      · rw [if_pos c3] at h
        cases h
      · rw [if_neg c3] at h
        injection h with h1
        rw [← h1]
        exact trimPrefix_data_of_ne asciiBridgePortPrefix bridgePortKey
          (fun hc => c1 (Or.inr hc))

theorem bvidToVlanMap_fold (db : String → Hash) :
    ∀ (vlanKeys : List String) (m : List (String × String)) (n : Nat),
      vlanKeys.foldl
        (fun acc vlanKey =>
          let bvid := trimPrefix asciiVLANObjectPrefix vlanKey
          if bvid = "" ∨ bvid = vlanKey then (acc.1, acc.2 + 1)
          else
            let vlanID := goTrim (hget (db vlanKey) "SAI_VLAN_ATTR_VLAN_ID")
            if vlanID = "" then (acc.1, acc.2 + 1)
            else (supdate acc.1 bvid vlanID, acc.2))
        (m, n)
      = ((vlanKeys.filterMap (bvidEntryOf db)).foldl (fun m p => supdate m p.1 p.2) m,
         n + vlanKeys.countP (isSkippedVlanObjKey db)) := by
  intro vlanKeys
  induction vlanKeys with
  | nil => intro m n; simp
  | cons k ks ih =>
      intro m n
      simp only [List.foldl_cons]
      by_cases c1 : trimPrefix asciiVLANObjectPrefix k = "" ∨
          trimPrefix asciiVLANObjectPrefix k = k
      · have he : bvidEntryOf db k = none := by
          simp only [bvidEntryOf, if_pos c1]
        have hs : isSkippedVlanObjKey db k = true := by
          simp [isSkippedVlanObjKey, he]
        simp only [if_pos c1]
        rw [ih]
        simp only [List.filterMap_cons, he, List.countP_cons, hs, List.foldl_cons,
          Prod.mk.injEq]
        refine ⟨by trivial, ?_⟩
        simp
        omega
      · by_cases c2 : goTrim (hget (db k) "SAI_VLAN_ATTR_VLAN_ID") = ""
        · have he : bvidEntryOf db k = none := by
            simp only [bvidEntryOf, if_neg c1, if_pos c2]
          have hs : isSkippedVlanObjKey db k = true := by
            simp [isSkippedVlanObjKey, he]
          simp only [if_neg c1, if_pos c2]
          rw [ih]
          simp only [List.filterMap_cons, he, List.countP_cons, hs, List.foldl_cons,
            Prod.mk.injEq]
          refine ⟨by trivial, ?_⟩
          simp
          omega
        · have he : bvidEntryOf db k
              = some (trimPrefix asciiVLANObjectPrefix k,
                      goTrim (hget (db k) "SAI_VLAN_ATTR_VLAN_ID")) := by
            simp only [bvidEntryOf, if_neg c1, if_neg c2]
          have hs : isSkippedVlanObjKey db k = false := by
            simp [isSkippedVlanObjKey, he]
          simp only [if_neg c1, if_neg c2]
          rw [ih]
          simp only [List.filterMap_cons, he, List.countP_cons, hs, List.foldl_cons,
            Prod.mk.injEq]
          refine ⟨by trivial, ?_⟩
          simp

theorem bvidToVlanMap_eq (db : String → Hash) (vlanKeys : List String) :
    bvidToVlanMap db vlanKeys
      = ((vlanKeys.filterMap (bvidEntryOf db)).foldl (fun m p => supdate m p.1 p.2) [],
         vlanKeys.countP (isSkippedVlanObjKey db)) := by
  unfold bvidToVlanMap
  rw [bvidToVlanMap_fold db vlanKeys [] 0]
  rw [Nat.zero_add]

theorem bridgePortToPortMap_fold (db : String → Hash)
    (portOidToName : List (String × String)) :
    ∀ (bridgePortKeys : List String) (m : List (String × String)) (n : Nat),
      bridgePortKeys.foldl
        (fun acc bridgePortKey =>
          let bridgePortID := trimPrefix asciiBridgePortPrefix bridgePortKey
          if bridgePortID = "" ∨ bridgePortID = bridgePortKey then (acc.1, acc.2 + 1)
          else
            let portID := hget (db bridgePortKey) "SAI_BRIDGE_PORT_ATTR_PORT_ID"
            if portID = "" then acc
            else
              let portName := slookup portOidToName portID
              if portName = "" then (acc.1, acc.2 + 1)
              else (supdate acc.1 bridgePortID portName, acc.2))
        (m, n)
      = ((bridgePortKeys.filterMap (bridgePortEntryOf db portOidToName)).foldl
            (fun m p => supdate m p.1 p.2) m,
         n + bridgePortKeys.countP (isSkippedBridgePortKey db portOidToName)) := by
  intro bridgePortKeys
  induction bridgePortKeys with
  | nil => intro m n; simp
  | cons k ks ih =>
      intro m n
      simp only [List.foldl_cons]
      by_cases c1 : trimPrefix asciiBridgePortPrefix k = "" ∨
          trimPrefix asciiBridgePortPrefix k = k
      · have he : bridgePortEntryOf db portOidToName k = none := by
          simp only [bridgePortEntryOf, if_pos c1]
        have hs : isSkippedBridgePortKey db portOidToName k = true := by
          simp only [isSkippedBridgePortKey]
          exact decide_eq_true (Or.inl c1)
        simp only [if_pos c1]
        rw [ih]
        simp only [List.filterMap_cons, he, List.countP_cons, hs, List.foldl_cons,
          Prod.mk.injEq]
        refine ⟨by trivial, ?_⟩
        simp
        omega
      · by_cases c2 : hget (db k) "SAI_BRIDGE_PORT_ATTR_PORT_ID" = ""
        · have he : bridgePortEntryOf db portOidToName k = none := by
            simp only [bridgePortEntryOf, if_neg c1, if_pos c2]
          have hs : isSkippedBridgePortKey db portOidToName k = false := by
            simp only [isSkippedBridgePortKey]
            apply decide_eq_false
            intro hcontra
            rcases hcontra with hcontra | hcontra
            · exact c1 hcontra
            · exact hcontra.1 c2
          simp only [if_neg c1, if_pos c2]
          rw [ih]
          simp only [List.filterMap_cons, he, List.countP_cons, hs, List.foldl_cons,
            Prod.mk.injEq]
          refine ⟨by trivial, ?_⟩
          simp
        · by_cases c3 : slookup portOidToName (hget (db k) "SAI_BRIDGE_PORT_ATTR_PORT_ID") = ""
          · have he : bridgePortEntryOf db portOidToName k = none := by
              simp only [bridgePortEntryOf, if_neg c1, if_neg c2, if_pos c3]
            have hs : isSkippedBridgePortKey db portOidToName k = true := by
              simp only [isSkippedBridgePortKey]
              exact decide_eq_true (Or.inr ⟨c2, c3⟩)
            simp only [if_neg c1, if_neg c2, if_pos c3]
            rw [ih]
            simp only [List.filterMap_cons, he, List.countP_cons, hs, List.foldl_cons,
              Prod.mk.injEq]
            refine ⟨by trivial, ?_⟩
            simp
            omega
          · have he : bridgePortEntryOf db portOidToName k
                = some (trimPrefix asciiBridgePortPrefix k,
                        slookup portOidToName (hget (db k) "SAI_BRIDGE_PORT_ATTR_PORT_ID")) := by
              simp only [bridgePortEntryOf, if_neg c1, if_neg c2, if_neg c3]
            have hs : isSkippedBridgePortKey db portOidToName k = false := by
              simp only [isSkippedBridgePortKey]
              apply decide_eq_false
              intro hcontra
              rcases hcontra with hcontra | hcontra
              · exact c1 hcontra
              · exact c3 hcontra.2
            simp only [if_neg c1, if_neg c2, if_neg c3]
            rw [ih]
            simp only [List.filterMap_cons, he, List.countP_cons, hs, List.foldl_cons,
              Prod.mk.injEq]
            refine ⟨by trivial, ?_⟩
            simp

theorem bridgePortToPortMap_eq (db : String → Hash)
    (portOidToName : List (String × String)) (bridgePortKeys : List String) :
    bridgePortToPortMap db portOidToName bridgePortKeys
      = ((bridgePortKeys.filterMap (bridgePortEntryOf db portOidToName)).foldl
            (fun m p => supdate m p.1 p.2) [],
         bridgePortKeys.countP (isSkippedBridgePortKey db portOidToName)) := by
  unfold bridgePortToPortMap
  rw [bridgePortToPortMap_fold db portOidToName bridgePortKeys [] 0]
  rw [Nat.zero_add]

theorem find?_key_congr {α : Type} (f : α → String) (x : String) {l₁ l₂ : List α}
    (h : l₁.Perm l₂) (hnd : (l₁.map f).Nodup) :
    l₁.find? (fun a => decide (f a = x)) = l₂.find? (fun a => decide (f a = x)) := by
  apply find?_congr_perm _ h
  intro a ha b hb hpa hpb
  exact List.inj_on_of_nodup_map hnd ha hb
    ((of_decide_eq_true hpa).trans (of_decide_eq_true hpb).symm)

theorem portOidToNameMap_lookup_congr {pm₁ pm₂ lm₁ lm₂ : Hash}
    (hpm : pm₁.Perm pm₂) (hlm : lm₁.Perm lm₂)
    (hnpm : (pm₁.map Prod.snd).Nodup) (hnlm : (lm₁.map Prod.snd).Nodup) :
    ∀ x, slookup (portOidToNameMap pm₁ lm₁) x = slookup (portOidToNameMap pm₂ lm₂) x := by
  intro x
  have hnpm₂ : (pm₂.map Prod.snd).Nodup := hnpm.perm (hpm.map Prod.snd)
  have hnlm₂ : (lm₂.map Prod.snd).Nodup := hnlm.perm (hlm.map Prod.snd)
  show slookup (lm₁.foldl (fun m p => supdate m p.2 p.1)
      (pm₁.foldl (fun m p => supdate m p.2 p.1) [])) x
    = slookup (lm₂.foldl (fun m p => supdate m p.2 p.1)
      (pm₂.foldl (fun m p => supdate m p.2 p.1) [])) x
  rw [slookup_foldl_supdate Prod.snd Prod.fst lm₁ _ x hnlm]
  rw [slookup_foldl_supdate Prod.snd Prod.fst lm₂ _ x hnlm₂]
  rw [find?_key_congr Prod.snd x hlm hnlm]
  cases lm₂.find? (fun p => decide (Prod.snd p = x)) with
  | some p => rfl
  | none =>
      rw [slookup_foldl_supdate Prod.snd Prod.fst pm₁ _ x hnpm]
      rw [slookup_foldl_supdate Prod.snd Prod.fst pm₂ _ x hnpm₂]
      rw [find?_key_congr Prod.snd x hpm hnpm]

theorem bvid_filterMap_fst_nodup (db : String → Hash) (vlanKeys : List String)
    (h : vlanKeys.Nodup) :
    ((vlanKeys.filterMap (bvidEntryOf db)).map Prod.fst).Nodup := by
  apply nodup_map_filterMap (bvidEntryOf db) Prod.fst
  · intro k₁ k₂ p₁ p₂ h₁ h₂ hg
    apply String.ext
    rw [bvidEntryOf_key_data db k₁ p₁ h₁, bvidEntryOf_key_data db k₂ p₂ h₂, hg]
  · exact h

theorem bridge_filterMap_fst_nodup (db : String → Hash)
    (portOidToName : List (String × String)) (bridgePortKeys : List String)
    (h : bridgePortKeys.Nodup) :
    ((bridgePortKeys.filterMap (bridgePortEntryOf db portOidToName)).map Prod.fst).Nodup := by
  apply nodup_map_filterMap (bridgePortEntryOf db portOidToName) Prod.fst
  · intro k₁ k₂ p₁ p₂ h₁ h₂ hg
    apply String.ext
    rw [bridgePortEntryOf_key_data db portOidToName k₁ p₁ h₁,
      bridgePortEntryOf_key_data db portOidToName k₂ p₂ h₂, hg]
  · exact h

theorem bvidToVlanMap_lookup_congr (db : String → Hash) {vk₁ vk₂ : List String}
    (h : vk₁.Perm vk₂) (hnd : vk₁.Nodup) :
    ∀ x, slookup (bvidToVlanMap db vk₁).1 x = slookup (bvidToVlanMap db vk₂).1 x := by
  intro x
  have hn₁ := bvid_filterMap_fst_nodup db vk₁ hnd
  have hn₂ : ((vk₂.filterMap (bvidEntryOf db)).map Prod.fst).Nodup :=
    hn₁.perm ((h.filterMap (bvidEntryOf db)).map Prod.fst)
  rw [bvidToVlanMap_eq, bvidToVlanMap_eq]
  show slookup ((vk₁.filterMap (bvidEntryOf db)).foldl (fun m p => supdate m p.1 p.2) []) x
    = slookup ((vk₂.filterMap (bvidEntryOf db)).foldl (fun m p => supdate m p.1 p.2) []) x
  rw [slookup_foldl_supdate Prod.fst Prod.snd _ _ x hn₁]
  rw [slookup_foldl_supdate Prod.fst Prod.snd _ _ x hn₂]
  rw [find?_key_congr Prod.fst x (h.filterMap (bvidEntryOf db)) hn₁]

theorem bvidToVlanMap_skip_congr (db : String → Hash) {vk₁ vk₂ : List String}
    (h : vk₁.Perm vk₂) :
    (bvidToVlanMap db vk₁).2 = (bvidToVlanMap db vk₂).2 := by
  rw [bvidToVlanMap_eq, bvidToVlanMap_eq]
  exact h.countP_eq _

theorem bridgePortToPortMap_congr_po (db : String → Hash)
    {po₁ po₂ : List (String × String)} (hpo : ∀ x, slookup po₁ x = slookup po₂ x)
    (bridgePortKeys : List String) :
    bridgePortToPortMap db po₁ bridgePortKeys = bridgePortToPortMap db po₂ bridgePortKeys := by
  unfold bridgePortToPortMap
  simp only [hpo]

theorem bridgePortToPortMap_lookup_congr (db : String → Hash)
    (portOidToName : List (String × String)) {bk₁ bk₂ : List String}
    (h : bk₁.Perm bk₂) (hnd : bk₁.Nodup) :
    ∀ x, slookup (bridgePortToPortMap db portOidToName bk₁).1 x
      = slookup (bridgePortToPortMap db portOidToName bk₂).1 x := by
  intro x
  have hn₁ := bridge_filterMap_fst_nodup db portOidToName bk₁ hnd
  have hn₂ : ((bk₂.filterMap (bridgePortEntryOf db portOidToName)).map Prod.fst).Nodup :=
    hn₁.perm ((h.filterMap (bridgePortEntryOf db portOidToName)).map Prod.fst)
  rw [bridgePortToPortMap_eq, bridgePortToPortMap_eq]
  show slookup ((bk₁.filterMap (bridgePortEntryOf db portOidToName)).foldl
      (fun m p => supdate m p.1 p.2) []) x
    = slookup ((bk₂.filterMap (bridgePortEntryOf db portOidToName)).foldl
      (fun m p => supdate m p.1 p.2) []) x
  rw [slookup_foldl_supdate Prod.fst Prod.snd _ _ x hn₁]
  rw [slookup_foldl_supdate Prod.fst Prod.snd _ _ x hn₂]
  rw [find?_key_congr Prod.fst x (h.filterMap (bridgePortEntryOf db portOidToName)) hn₁]

theorem bridgePortToPortMap_skip_congr (db : String → Hash)
    (portOidToName : List (String × String)) {bk₁ bk₂ : List String}
    (h : bk₁.Perm bk₂) :
    (bridgePortToPortMap db portOidToName bk₁).2
      = (bridgePortToPortMap db portOidToName bk₂).2 := by
  rw [bridgePortToPortMap_eq, bridgePortToPortMap_eq]
  exact h.countP_eq _

theorem resolveFDBVLANLabel_congr (e : FdbEntryKey) {bv₁ bv₂ : List (String × String)}
    (h : ∀ x, slookup bv₁ x = slookup bv₂ x) :
    resolveFDBVLANLabel e bv₁ = resolveFDBVLANLabel e bv₂ := by
  simp only [resolveFDBVLANLabel, h]

theorem fdbEntryStep_congr (jsonParse : String → Option FdbEntryKey) (db : String → Hash)
    {bv₁ bv₂ bp₁ bp₂ : List (String × String)}
    (hbv : ∀ x, slookup bv₁ x = slookup bv₂ x)
    (hbp : ∀ x, slookup bp₁ x = slookup bp₂ x) (st : FdbScrapeState) (k : String) :
    fdbEntryStep jsonParse db bv₁ bp₁ st k = fdbEntryStep jsonParse db bv₂ bp₂ st k := by
  simp only [fdbEntryStep, resolveFDBVLANLabel, hbv, hbp]

theorem fdbEntriesLoop_congr (jsonParse : String → Option FdbEntryKey) (db : String → Hash)
    {bv₁ bv₂ bp₁ bp₂ : List (String × String)}
    (hbv : ∀ x, slookup bv₁ x = slookup bv₂ x)
    (hbp : ∀ x, slookup bp₁ x = slookup bp₂ x) (maxEntries : Nat) :
    ∀ (ks : List String) (idx : Nat) (st : FdbScrapeState),
      fdbEntriesLoop jsonParse db bv₁ bp₁ maxEntries ks idx st
        = fdbEntriesLoop jsonParse db bv₂ bp₂ maxEntries ks idx st := by
  intro ks
  induction ks with
  | nil => intro idx st; rfl
  | cons k rest ih =>
      intro idx st
      simp only [fdbEntriesLoop]
      by_cases hge : idx ≥ maxEntries
      · rw [if_pos hge, if_pos hge]
      · rw [if_neg hge, if_neg hge]
        rw [fdbEntryStep_congr jsonParse db hbv hbp st k]
        exact ih (idx + 1) _

theorem fdbScrape_scan_order_independent (cfg : FdbConfig)
    (jsonParse : String → Option FdbEntryKey) (db : String → Hash)
    {pm₁ pm₂ lm₁ lm₂ : Hash} {vk₁ vk₂ bk₁ bk₂ fk₁ fk₂ : List String}
    (hpm : pm₁.Perm pm₂) (hlm : lm₁.Perm lm₂) (hvk : vk₁.Perm vk₂) (hbk : bk₁.Perm bk₂)
    (hfk : fk₁.Perm fk₂) (hnpm : (pm₁.map Prod.snd).Nodup) (hnlm : (lm₁.map Prod.snd).Nodup)
    (hnvk : vk₁.Nodup) (hnbk : bk₁.Nodup) :
    fdbScrape cfg jsonParse db pm₁ lm₁ vk₁ bk₁ fk₁
      = fdbScrape cfg jsonParse db pm₂ lm₂ vk₂ bk₂ fk₂ := by
  have hpo := portOidToNameMap_lookup_congr hpm hlm hnpm hnlm
  have hbp12 := bridgePortToPortMap_congr_po db hpo bk₁
  have hbpL := bridgePortToPortMap_lookup_congr db (portOidToNameMap pm₂ lm₂) hbk hnbk
  have hbpS := bridgePortToPortMap_skip_congr db (portOidToNameMap pm₂ lm₂) hbk
  have hbvL := bvidToVlanMap_lookup_congr db hvk hnvk
  have hbvS := bvidToVlanMap_skip_congr db hvk
  have hkeys := sortStrings_eq_of_perm hfk
  have hstate : fdbEntriesLoop jsonParse db (bvidToVlanMap db vk₁).1
      (bridgePortToPortMap db (portOidToNameMap pm₁ lm₁) bk₁).1
      cfg.maxEntries (sortStrings fk₁) 0
      ⟨(bvidToVlanMap db vk₁).2
        + (bridgePortToPortMap db (portOidToNameMap pm₁ lm₁) bk₁).2, 0, 0, 0, [], [], []⟩
    = fdbEntriesLoop jsonParse db (bvidToVlanMap db vk₂).1
      (bridgePortToPortMap db (portOidToNameMap pm₂ lm₂) bk₂).1
      cfg.maxEntries (sortStrings fk₂) 0
      ⟨(bvidToVlanMap db vk₂).2
        + (bridgePortToPortMap db (portOidToNameMap pm₂ lm₂) bk₂).2, 0, 0, 0, [], [], []⟩ := by
    rw [hkeys, hbvS, hbp12, hbpS]
    apply fdbEntriesLoop_congr jsonParse db hbvL hbpL
  show ({ metrics := _, skipped := _, truncated := _ } : FdbResult) = _
  simp only [fdbScrape]
  rw [hstate]

/-- C8: each refresh pipeline is a pure function of its source tables,
independent of scan return order and of map iteration order.  For the
VLAN pipeline: any two scans of the same CONFIG_DB and APPL_DB
identifier sets and the same member-key set (in any order,
duplicate-free member scan) produce identical snapshots — same records,
same label values, same order — and the parent walk is over a
lexicographically sorted identifier list.  For the FDB pipeline: two
refresh cycles over identical ASIC_DB tables and identical port/lag name
maps produce identical snapshots — metrics, skip counter and truncation
flag — whatever the return order of the VLAN-object, bridge-port and
forwarding-entry key scans (duplicate-free, as key scans of a database
are) and whatever the iteration order of the two name maps (OID values
unique across each map, as the device OID assignment yields); the
forwarding-entry walk and the per-VLAN, per-port and per-type series
walks built by sortedMapKeys are over lexicographically sorted key
lists. -/
theorem scrape_scan_order_independent :
    (∀ (cfg : VlanConfig) (dbC dbA : String → Hash) (c₁ c₂ a₁ a₂ m₁ m₂ : List String),
      c₁.Perm c₂ → a₁.Perm a₂ → m₁.Perm m₂ → m₁.Nodup →
      vlanScrape cfg dbC dbA c₁ a₁ m₁ = vlanScrape cfg dbC dbA c₂ a₂ m₂) ∧
    (∀ (cfg : FdbConfig) (jsonParse : String → Option FdbEntryKey) (db : String → Hash)
      (pm₁ pm₂ lm₁ lm₂ : Hash) (vk₁ vk₂ bk₁ bk₂ fk₁ fk₂ : List String),
      pm₁.Perm pm₂ → lm₁.Perm lm₂ → vk₁.Perm vk₂ → bk₁.Perm bk₂ → fk₁.Perm fk₂ →
      (pm₁.map Prod.snd).Nodup → (lm₁.map Prod.snd).Nodup → vk₁.Nodup → bk₁.Nodup →
      fdbScrape cfg jsonParse db pm₁ lm₁ vk₁ bk₁ fk₁
        = fdbScrape cfg jsonParse db pm₂ lm₂ vk₂ bk₂ fk₂) ∧
    (∀ (l : List String), List.Sorted leStringRel (sortStrings l)) ∧
    ∀ (m : List (String × Nat)), List.Sorted leStringRel (sortedMapKeys m) := by
  refine ⟨?_, ?_, sortStrings_sorted, ?_⟩
  · intro cfg dbC dbA c₁ c₂ a₁ a₂ m₁ m₂ hc ha hm hnd
    rw [vlanScrape_normalize, vlanScrape_normalize]
    have hnames : sortStrings (scanNames "VLAN_TABLE:" (scanNames "VLAN|" ([], 0) c₁) a₁).1
        = sortStrings (scanNames "VLAN_TABLE:" (scanNames "VLAN|" ([], 0) c₂) a₂).1 := by
      apply sortStrings_eq_of_perm
      have hn₁ : (scanNames "VLAN_TABLE:" (scanNames "VLAN|" ([], 0) c₁) a₁).1.Nodup :=
        scanNames_fst_nodup "VLAN_TABLE:" a₁ _ (scanNames_fst_nodup "VLAN|" c₁ ([], 0) (by simp))
      have hn₂ : (scanNames "VLAN_TABLE:" (scanNames "VLAN|" ([], 0) c₂) a₂).1.Nodup :=
        scanNames_fst_nodup "VLAN_TABLE:" a₂ _ (scanNames_fst_nodup "VLAN|" c₂ ([], 0) (by simp))
      rw [List.perm_ext_iff_of_nodup hn₁ hn₂]
      intro x
      rw [scanNames_fst_mem, scanNames_fst_mem, scanNames_fst_mem, scanNames_fst_mem]
      constructor
      · intro h
        rcases h with (h | ⟨k, hk1, hk2, hk3⟩) | ⟨k, hk1, hk2, hk3⟩
        · simp at h
        · exact Or.inl (Or.inr ⟨k, hc.mem_iff.mp hk1, hk2, hk3⟩)
        · exact Or.inr ⟨k, ha.mem_iff.mp hk1, hk2, hk3⟩
      · intro h
        rcases h with (h | ⟨k, hk1, hk2, hk3⟩) | ⟨k, hk1, hk2, hk3⟩
        · simp at h
        · exact Or.inl (Or.inr ⟨k, hc.mem_iff.mpr hk1, hk2, hk3⟩)
        · exact Or.inr ⟨k, ha.mem_iff.mpr hk1, hk2, hk3⟩
    have hskip : (scanNames "VLAN_TABLE:" (scanNames "VLAN|" ([], 0) c₁) a₁).2
        = (scanNames "VLAN_TABLE:" (scanNames "VLAN|" ([], 0) c₂) a₂).2 := by
      rw [scanNames_snd, scanNames_snd, scanNames_snd, scanNames_snd]
      simp only
      rw [hc.countP_eq, ha.countP_eq]
    have hcnt : m₁.countP (isBadMemberKey dbC) = m₂.countP (isBadMemberKey dbC) :=
      hm.countP_eq _
    rw [hnames, hskip, hcnt]
    apply vlanFold_congr
    intro v
    apply sortMembers_eq_of_perm
    · exact List.Perm.map _ (List.Perm.filter _ (hm.filterMap (memberEntryOf dbC)))
    · exact membersOfList_names_nodup dbC m₁ hnd v
  · intro cfg jsonParse db pm₁ pm₂ lm₁ lm₂ vk₁ vk₂ bk₁ bk₂ fk₁ fk₂
      hpm hlm hvk hbk hfk hnpm hnlm hnvk hnbk
    exact fdbScrape_scan_order_independent cfg jsonParse db hpm hlm hvk hbk hfk
      hnpm hnlm hnvk hnbk
  · intro m
    unfold sortedMapKeys
    exact sortStrings_sorted _

/-- C8 witness: for each pipeline, two scans of the same tables in
different orders produce identical snapshots. -/
theorem scrape_determinism_witness :
    (vlanScrape ⟨8, 8⟩
        (fun k => if k = "VLAN_MEMBER|Vlan2|Ethernet0" then [("tagging_mode", "tagged")] else [])
        (fun _ => [("oper_status", "up")])
        ["VLAN|Vlan10", "VLAN|Vlan2"] ["VLAN_TABLE:Vlan2"]
        ["VLAN_MEMBER|Vlan2|Ethernet4", "VLAN_MEMBER|Vlan2|Ethernet0"]
      = vlanScrape ⟨8, 8⟩
        (fun k => if k = "VLAN_MEMBER|Vlan2|Ethernet0" then [("tagging_mode", "tagged")] else [])
        (fun _ => [("oper_status", "up")])
        ["VLAN|Vlan2", "VLAN|Vlan10"] ["VLAN_TABLE:Vlan2"]
        ["VLAN_MEMBER|Vlan2|Ethernet0", "VLAN_MEMBER|Vlan2|Ethernet4"]) ∧
    fdbScrape ⟨16, 8, 8⟩
        (fun s => if s = "E1" then some ⟨"oid:0x26", "", "aa:bb:cc:dd:ee:01"⟩ else none)
        (fun k =>
          if k = "ASIC_STATE:SAI_OBJECT_TYPE_VLAN:oid:0x26"
            then [("SAI_VLAN_ATTR_VLAN_ID", "10")]
          else if k = "ASIC_STATE:SAI_OBJECT_TYPE_FDB_ENTRY:E1"
            then [("SAI_FDB_ENTRY_ATTR_TYPE", "SAI_FDB_ENTRY_TYPE_DYNAMIC")]
          else [])
        [("Ethernet0", "oid:0x1000")] [("PortChannel1", "oid:0x2000")]
        ["ASIC_STATE:SAI_OBJECT_TYPE_VLAN:oid:0x26", "ASIC_STATE:SAI_OBJECT_TYPE_VLAN:oid:0x27"]
        []
        ["ASIC_STATE:SAI_OBJECT_TYPE_FDB_ENTRY:E1", "ASIC_STATE:SAI_OBJECT_TYPE_FDB_ENTRY:E2"]
      = fdbScrape ⟨16, 8, 8⟩
        (fun s => if s = "E1" then some ⟨"oid:0x26", "", "aa:bb:cc:dd:ee:01"⟩ else none)
        (fun k =>
          if k = "ASIC_STATE:SAI_OBJECT_TYPE_VLAN:oid:0x26"
            then [("SAI_VLAN_ATTR_VLAN_ID", "10")]
          else if k = "ASIC_STATE:SAI_OBJECT_TYPE_FDB_ENTRY:E1"
            then [("SAI_FDB_ENTRY_ATTR_TYPE", "SAI_FDB_ENTRY_TYPE_DYNAMIC")]
          else [])
        [("Ethernet0", "oid:0x1000")] [("PortChannel1", "oid:0x2000")]
        ["ASIC_STATE:SAI_OBJECT_TYPE_VLAN:oid:0x27", "ASIC_STATE:SAI_OBJECT_TYPE_VLAN:oid:0x26"]
        []
        ["ASIC_STATE:SAI_OBJECT_TYPE_FDB_ENTRY:E2", "ASIC_STATE:SAI_OBJECT_TYPE_FDB_ENTRY:E1"] := by
  constructor
  · exact scrape_scan_order_independent.1 ⟨8, 8⟩
      (fun k => if k = "VLAN_MEMBER|Vlan2|Ethernet0" then [("tagging_mode", "tagged")] else [])
      (fun _ => [("oper_status", "up")])
      ["VLAN|Vlan10", "VLAN|Vlan2"] ["VLAN|Vlan2", "VLAN|Vlan10"]
      ["VLAN_TABLE:Vlan2"] ["VLAN_TABLE:Vlan2"]
      ["VLAN_MEMBER|Vlan2|Ethernet4", "VLAN_MEMBER|Vlan2|Ethernet0"]
      ["VLAN_MEMBER|Vlan2|Ethernet0", "VLAN_MEMBER|Vlan2|Ethernet4"]
      (by decide) (by decide) (by decide) (by decide)
  · exact scrape_scan_order_independent.2.1 ⟨16, 8, 8⟩
      (fun s => if s = "E1" then some ⟨"oid:0x26", "", "aa:bb:cc:dd:ee:01"⟩ else none)
      (fun k =>
        if k = "ASIC_STATE:SAI_OBJECT_TYPE_VLAN:oid:0x26"
          then [("SAI_VLAN_ATTR_VLAN_ID", "10")]
        else if k = "ASIC_STATE:SAI_OBJECT_TYPE_FDB_ENTRY:E1"
          then [("SAI_FDB_ENTRY_ATTR_TYPE", "SAI_FDB_ENTRY_TYPE_DYNAMIC")]
        else [])
      [("Ethernet0", "oid:0x1000")] [("Ethernet0", "oid:0x1000")]
      [("PortChannel1", "oid:0x2000")] [("PortChannel1", "oid:0x2000")]
      ["ASIC_STATE:SAI_OBJECT_TYPE_VLAN:oid:0x26", "ASIC_STATE:SAI_OBJECT_TYPE_VLAN:oid:0x27"]
      ["ASIC_STATE:SAI_OBJECT_TYPE_VLAN:oid:0x27", "ASIC_STATE:SAI_OBJECT_TYPE_VLAN:oid:0x26"]
      [] []
      ["ASIC_STATE:SAI_OBJECT_TYPE_FDB_ENTRY:E1", "ASIC_STATE:SAI_OBJECT_TYPE_FDB_ENTRY:E2"]
      ["ASIC_STATE:SAI_OBJECT_TYPE_FDB_ENTRY:E2", "ASIC_STATE:SAI_OBJECT_TYPE_FDB_ENTRY:E1"]
      (by decide) (by decide) (by decide) (by decide) (by decide)
      (by decide) (by decide) (by decide) (by decide)

end SonicExporter